import Mathlib

/-!
Verification development for the KindleTool bundle codec.

The data model (enums, header structs, block-size constants, filename
classification macros) is embedded from src/KindleTool/kindle_tool.h.
Function bodies declared in that header but whose defining .c files are
not part of the source tree are modelled from the specification, as noted
in the individual doc comments.

Byte streams are modelled as lists of natural numbers, each below 256.
-/

namespace KindleTool

/-- Constant from kindle_tool.h line 81: block granularity of the obfuscation. -/
def BLOCK_SIZE : Nat := 64

/-- Constant from kindle_tool.h line 82: total recovery header frame size. -/
def RECOVERY_BLOCK_SIZE : Nat := 131072

/-- Constant from kindle_tool.h line 84. -/
def MAGIC_NUMBER_LENGTH : Nat := 4

/-- Constant from kindle_tool.h line 85. -/
def MD5_HASH_LENGTH : Nat := 32

/-- Constant from kindle_tool.h line 86. -/
def SHA256_HASH_LENGTH : Nat := 64

/-- Constant from kindle_tool.h line 88: OTA header body size (after the magic). -/
def OTA_UPDATE_BLOCK_SIZE : Nat := 60

/-- Constant from kindle_tool.h line 89: OTA V2 fixed header size. -/
def OTA_UPDATE_V2_BLOCK_SIZE : Nat := 18

/-- Constant from kindle_tool.h line 90: OTA V2 per-device tail size. -/
def OTA_UPDATE_V2_PART_2_BLOCK_SIZE : Nat := 36

/-- Constant from kindle_tool.h line 91: recovery header body size (after the magic). -/
def RECOVERY_UPDATE_BLOCK_SIZE : Nat := 131068

/-- Constant from kindle_tool.h line 92: update-signature header body size. -/
def UPDATE_SIGNATURE_BLOCK_SIZE : Nat := 60

/-- Constant from kindle_tool.h line 94. -/
def CERTIFICATE_DEV_SIZE : Nat := 128

/-- Constant from kindle_tool.h line 95. -/
def CERTIFICATE_1K_SIZE : Nat := 128

/-- Constant from kindle_tool.h line 96. -/
def CERTIFICATE_2K_SIZE : Nat := 256

/-- Constant from kindle_tool.h line 100. -/
def SERIAL_NO_LENGTH : Nat := 16

/-- Constant from kindle_tool.h line 98: name of the manifest file. -/
def INDEX_FILE_NAME : String := "update-filelist.dat"

/-- Error kinds of the tool, from the specification's error-handling design. -/
inductive KTError where
  | Io
  | Truncated
  | InvalidMagic
  | InvalidHeader
  | UnknownDevice
  | UnknownPlatform
  | UnknownBoard
  | UnsupportedKind
  | MissingScript
  | AmbiguousScript
  | IntegrityFailure
  | KeyParse
  | SlotMismatch
  | BadSignature
deriving DecidableEq, Repr

/-- The BundleVersion enum from kindle_tool.h lines 166-177. -/
inductive BundleVersion where
  | UpdateSignature
  | OTAUpdateV2
  | OTAUpdate
  | RecoveryUpdate
  | RecoveryUpdateV2
  | UserDataPackage
  | AndroidUpdate
  | ComponentUpdate
  | UnknownUpdate
deriving DecidableEq, Repr

/-- The CertificateNumber enum from kindle_tool.h lines 187-193, as its
underlying numeric values. -/
def CertificateDeveloper : Nat := 0x00
def Certificate1K : Nat := 0x01
def Certificate2K : Nat := 0x02
def CertificateUnknown : Nat := 0xFF

/-! ## Obfuscation codec -/

/-- Modelled from the spec: the body of md is not under src/ (only its
declaration, kindle_tool.h line 552).  The spec describes the obfuscation as a
self-inverse byte-permutation-and-XOR; the single-byte transform is modelled
as a swap of the two 4-bit halves of the byte followed by XOR with 0x7A. -/
def mdByte (b : Nat) : Nat :=
  (b % 16 * 16 + b / 16 % 16) ^^^ 0x7A

/-- Modelled from the spec: the body of dm is not under src/ (only its
declaration, kindle_tool.h line 553).  Inverse single-byte transform: XOR with
0x7A, then swap the two 4-bit halves back. -/
def dmByte (b : Nat) : Nat :=
  ((b ^^^ 0x7A) % 16 * 16 + (b ^^^ 0x7A) / 16 % 16)

/-- Modelled from the spec: the obfuscation transform over a byte stream is
applied independently to each complete BLOCK_SIZE-byte block; trailing bytes
that do not fill a block are passed through unchanged. -/
def md (data : List Nat) : List Nat :=
  (data.take (data.length / BLOCK_SIZE * BLOCK_SIZE)).map mdByte ++
    data.drop (data.length / BLOCK_SIZE * BLOCK_SIZE)

/-- Modelled from the spec: the deobfuscation transform, block-wise inverse
of md, with the same trailing-byte passthrough. -/
def dm (data : List Nat) : List Nat :=
  (data.take (data.length / BLOCK_SIZE * BLOCK_SIZE)).map dmByte ++
    data.drop (data.length / BLOCK_SIZE * BLOCK_SIZE)

/-! ## Bundle version detection -/

/-- Modelled from the spec: the body of get_bundle_version is not under src/
(only its declaration, kindle_tool.h line 559).  The four-byte ASCII magic at
offset 0 selects the variant per the spec's table; every unrecognized magic
maps to UnknownUpdate. -/
def get_bundle_version (magic : String) : BundleVersion :=
  if magic = "SP01" then .UpdateSignature
  else if magic = "FC02" ∨ magic = "FD03" then .OTAUpdate
  else if magic = "FC04" ∨ magic = "FD04" ∨ magic = "FL01" then .OTAUpdateV2
  else if magic = "FB01" ∨ magic = "FB02" then .RecoveryUpdate
  else .UnknownUpdate

/-- Modelled from the spec: a recovery bundle is reclassified as
RecoveryUpdateV2 when the header-revision flag inside the header block
indicates header revision at least 2; all other kinds keep the magic-selected
classification. -/
def effective_bundle_version (magic : String) (header_rev : Nat) : BundleVersion :=
  if get_bundle_version magic = .RecoveryUpdate ∧ 2 ≤ header_rev then .RecoveryUpdateV2
  else get_bundle_version magic

/-- The recognized magic strings. -/
def known_magics : List String :=
  ["SP01", "FC02", "FD03", "FC04", "FD04", "FL01", "FB01", "FB02"]

/-! ## Header block sizes -/

/-- Size in bytes of the raw header block that follows the 4-byte magic, by
bundle kind: given by the raw union members of UpdateHeader, kindle_tool.h
lines 523-536 (ota_header_data[OTA_UPDATE_BLOCK_SIZE],
signature_header_data[UPDATE_SIGNATURE_BLOCK_SIZE],
recovery_header_data[RECOVERY_UPDATE_BLOCK_SIZE], all placed after
magic_number[MAGIC_NUMBER_LENGTH]). -/
def header_body_size : BundleVersion → Nat
  | .UpdateSignature => UPDATE_SIGNATURE_BLOCK_SIZE
  | .OTAUpdate => OTA_UPDATE_BLOCK_SIZE
  | .OTAUpdateV2 => OTA_UPDATE_BLOCK_SIZE
  | .RecoveryUpdate => RECOVERY_UPDATE_BLOCK_SIZE
  | .RecoveryUpdateV2 => RECOVERY_UPDATE_BLOCK_SIZE
  | _ => 0

/-! ## Little-endian serialization helpers -/

/-- Little-endian encoding of a value on w bytes (least significant first). -/
def le_bytes : Nat → Nat → List Nat
  | 0, _ => []
  | w + 1, v => v % 256 :: le_bytes w (v / 256)

/-- Little-endian value of a byte list (first byte least significant). -/
def read_le : List Nat → Nat
  | [] => 0
  | b :: rest => b + 256 * read_le rest

/-- Big-endian encoding of a value on w bytes (most significant first),
as used for raw RSA signature octet strings. -/
def be_bytes (w v : Nat) : List Nat :=
  (le_bytes w v).reverse

/-- A list of n bytes, each below 256. -/
def byte_list_wf (bs : List Nat) (n : Nat) : Prop :=
  bs.length = n ∧ ∀ b ∈ bs, b < 256

instance (bs : List Nat) (n : Nat) : Decidable (byte_list_wf bs n) := by
  unfold byte_list_wf
  infer_instance

/-! ## Header structures, from kindle_tool.h lines 485-536 -/

/-- UpdateSignatureHeader struct (kindle_tool.h lines 485-488): the
certificate-slot selector, stored as a 4-byte little-endian integer at the
start of the 60-byte signature header frame. -/
structure UpdateSignatureHeader where
  certificate_number : Nat
deriving DecidableEq, Repr

/-- OTAUpdateHeader struct (kindle_tool.h lines 490-498). -/
structure OTAUpdateHeader where
  source_revision : Nat
  target_revision : Nat
  device : Nat
  optional : Nat
  unused : Nat
  md5_sum : List Nat
deriving DecidableEq, Repr

/-- RecoveryUpdateHeader struct (kindle_tool.h lines 500-508). -/
structure RecoveryUpdateHeader where
  unused : List Nat
  md5_sum : List Nat
  magic_1 : Nat
  magic_2 : Nat
  minor : Nat
  device : Nat
deriving DecidableEq, Repr

/-- RecoveryH2UpdateHeader struct (kindle_tool.h lines 510-521), the packed
FB02 header with header revision 2. -/
structure RecoveryH2UpdateHeader where
  foo : List Nat
  target_revision : Nat
  md5_sum : List Nat
  magic_1 : Nat
  magic_2 : Nat
  minor : Nat
  platform : Nat
  header_rev : Nat
  board : Nat
deriving DecidableEq, Repr

/-- Modelled from the spec: the OTA V2 per-device 36-byte tail (device u16,
critical u8, unused u8, md5 digest of 32 ASCII bytes); no struct for it
appears under src/, only the OTA_UPDATE_V2_PART_2_BLOCK_SIZE constant. -/
structure OTAUpdateV2Entry where
  device : Nat
  critical : Nat
  unused : Nat
  md5_sum : List Nat
deriving DecidableEq, Repr

/-- Modelled from the spec: the OTA V2 header (source u64, target u64,
num_devices u16, then num_devices tails); no struct for it appears under
src/, only the OTA_UPDATE_V2_BLOCK_SIZE constant. -/
structure OTAUpdateV2Header where
  source_revision : Nat
  target_revision : Nat
  entries : List OTAUpdateV2Entry
deriving DecidableEq, Repr

/-! ## Field well-formedness -/

def UpdateSignatureHeader.wf (h : UpdateSignatureHeader) : Prop :=
  h.certificate_number < 2 ^ 32

instance (h : UpdateSignatureHeader) : Decidable h.wf := by
  unfold UpdateSignatureHeader.wf
  infer_instance

def OTAUpdateHeader.wf (h : OTAUpdateHeader) : Prop :=
  h.source_revision < 2 ^ 32 ∧ h.target_revision < 2 ^ 32 ∧ h.device < 2 ^ 16 ∧
    h.optional < 256 ∧ h.unused < 256 ∧ byte_list_wf h.md5_sum MD5_HASH_LENGTH

instance (h : OTAUpdateHeader) : Decidable h.wf := by
  unfold OTAUpdateHeader.wf
  infer_instance

def RecoveryUpdateHeader.wf (h : RecoveryUpdateHeader) : Prop :=
  byte_list_wf h.unused 12 ∧ byte_list_wf h.md5_sum MD5_HASH_LENGTH ∧
    h.magic_1 < 2 ^ 32 ∧ h.magic_2 < 2 ^ 32 ∧ h.minor < 2 ^ 32 ∧ h.device < 2 ^ 32

instance (h : RecoveryUpdateHeader) : Decidable h.wf := by
  unfold RecoveryUpdateHeader.wf
  infer_instance

def RecoveryH2UpdateHeader.wf (h : RecoveryH2UpdateHeader) : Prop :=
  byte_list_wf h.foo 4 ∧ h.target_revision < 2 ^ 64 ∧
    byte_list_wf h.md5_sum MD5_HASH_LENGTH ∧ h.magic_1 < 2 ^ 32 ∧ h.magic_2 < 2 ^ 32 ∧
    h.minor < 2 ^ 32 ∧ h.platform < 2 ^ 32 ∧ h.header_rev < 2 ^ 32 ∧ h.board < 2 ^ 32

instance (h : RecoveryH2UpdateHeader) : Decidable h.wf := by
  unfold RecoveryH2UpdateHeader.wf
  infer_instance

def OTAUpdateV2Entry.wf (e : OTAUpdateV2Entry) : Prop :=
  e.device < 2 ^ 16 ∧ e.critical < 256 ∧ e.unused < 256 ∧
    byte_list_wf e.md5_sum MD5_HASH_LENGTH

instance (e : OTAUpdateV2Entry) : Decidable e.wf := by
  unfold OTAUpdateV2Entry.wf
  infer_instance

def OTAUpdateV2Header.wf (h : OTAUpdateV2Header) : Prop :=
  h.source_revision < 2 ^ 64 ∧ h.target_revision < 2 ^ 64 ∧
    h.entries.length < 2 ^ 16 ∧ ∀ e ∈ h.entries, e.wf

instance (h : OTAUpdateV2Header) : Decidable h.wf := by
  unfold OTAUpdateV2Header.wf
  infer_instance

/-! ## Header codec.

Modelled from the spec: the encode and decode routines for each header
variant are not under src/ (they live in the convert/create translation
units); per the spec, numeric fields are little-endian, ASCII digest fields
are exactly 32 bytes wide, the regions of the fixed block not covered by
fields are zeroed on encode and ignored on decode, and a buffer shorter than
the fixed block size of the variant is rejected with InvalidHeader. -/

def encode_signature (h : UpdateSignatureHeader) : List Nat :=
  le_bytes 4 h.certificate_number ++ List.replicate (UPDATE_SIGNATURE_BLOCK_SIZE - 4) 0

def decode_signature (bs : List Nat) : Except KTError UpdateSignatureHeader :=
  if bs.length < UPDATE_SIGNATURE_BLOCK_SIZE then .error .InvalidHeader
  else .ok ⟨read_le (bs.take 4)⟩

def encode_ota (h : OTAUpdateHeader) : List Nat :=
  le_bytes 4 h.source_revision ++
    (le_bytes 4 h.target_revision ++
      (le_bytes 2 h.device ++
        ([h.optional] ++
          ([h.unused] ++
            (h.md5_sum ++ List.replicate (OTA_UPDATE_BLOCK_SIZE - 44) 0)))))

def decode_ota (bs : List Nat) : Except KTError OTAUpdateHeader :=
  if bs.length < OTA_UPDATE_BLOCK_SIZE then .error .InvalidHeader
  else .ok
    { source_revision := read_le (bs.take 4)
      target_revision := read_le ((bs.drop 4).take 4)
      device := read_le (((bs.drop 4).drop 4).take 2)
      optional := read_le ((((bs.drop 4).drop 4).drop 2).take 1)
      unused := read_le (((((bs.drop 4).drop 4).drop 2).drop 1).take 1)
      md5_sum := ((((((bs.drop 4).drop 4).drop 2).drop 1).drop 1).take MD5_HASH_LENGTH) }

def encode_recovery (h : RecoveryUpdateHeader) : List Nat :=
  h.unused ++
    (h.md5_sum ++
      (le_bytes 4 h.magic_1 ++
        (le_bytes 4 h.magic_2 ++
          (le_bytes 4 h.minor ++
            (le_bytes 4 h.device ++
              List.replicate (RECOVERY_UPDATE_BLOCK_SIZE - 60) 0)))))

def decode_recovery (bs : List Nat) : Except KTError RecoveryUpdateHeader :=
  if bs.length < RECOVERY_UPDATE_BLOCK_SIZE then .error .InvalidHeader
  else .ok
    { unused := bs.take 12
      md5_sum := (bs.drop 12).take MD5_HASH_LENGTH
      magic_1 := read_le (((bs.drop 12).drop 32).take 4)
      magic_2 := read_le ((((bs.drop 12).drop 32).drop 4).take 4)
      minor := read_le (((((bs.drop 12).drop 32).drop 4).drop 4).take 4)
      device := read_le ((((((bs.drop 12).drop 32).drop 4).drop 4).drop 4).take 4) }

def encode_recovery_h2 (h : RecoveryH2UpdateHeader) : List Nat :=
  h.foo ++
    (le_bytes 8 h.target_revision ++
      (h.md5_sum ++
        (le_bytes 4 h.magic_1 ++
          (le_bytes 4 h.magic_2 ++
            (le_bytes 4 h.minor ++
              (le_bytes 4 h.platform ++
                (le_bytes 4 h.header_rev ++
                  (le_bytes 4 h.board ++
                    List.replicate (RECOVERY_UPDATE_BLOCK_SIZE - 68) 0))))))))

def decode_recovery_h2 (bs : List Nat) : Except KTError RecoveryH2UpdateHeader :=
  if bs.length < RECOVERY_UPDATE_BLOCK_SIZE then .error .InvalidHeader
  else .ok
    { foo := bs.take 4
      target_revision := read_le ((bs.drop 4).take 8)
      md5_sum := ((bs.drop 4).drop 8).take MD5_HASH_LENGTH
      magic_1 := read_le ((((bs.drop 4).drop 8).drop 32).take 4)
      magic_2 := read_le (((((bs.drop 4).drop 8).drop 32).drop 4).take 4)
      minor := read_le ((((((bs.drop 4).drop 8).drop 32).drop 4).drop 4).take 4)
      platform := read_le (((((((bs.drop 4).drop 8).drop 32).drop 4).drop 4).drop 4).take 4)
      header_rev :=
        read_le ((((((((bs.drop 4).drop 8).drop 32).drop 4).drop 4).drop 4).drop 4).take 4)
      board :=
        read_le
          (((((((((bs.drop 4).drop 8).drop 32).drop 4).drop 4).drop 4).drop 4).drop 4).take 4) }

def encode_ota_v2_entry (e : OTAUpdateV2Entry) : List Nat :=
  le_bytes 2 e.device ++ ([e.critical] ++ ([e.unused] ++ e.md5_sum))

def encode_ota_v2_entries : List OTAUpdateV2Entry → List Nat
  | [] => []
  | e :: rest => encode_ota_v2_entry e ++ encode_ota_v2_entries rest

def decode_ota_v2_entries : Nat → List Nat → Except KTError (List OTAUpdateV2Entry)
  | 0, _ => .ok []
  | n + 1, bs =>
    if bs.length < OTA_UPDATE_V2_PART_2_BLOCK_SIZE then .error .InvalidHeader
    else do
      let e : OTAUpdateV2Entry :=
        { device := read_le (bs.take 2)
          critical := read_le ((bs.drop 2).take 1)
          unused := read_le (((bs.drop 2).drop 1).take 1)
          md5_sum := ((((bs.drop 2).drop 1).drop 1).take MD5_HASH_LENGTH) }
      let rest ← decode_ota_v2_entries n ((((bs.drop 2).drop 1).drop 1).drop MD5_HASH_LENGTH)
      return e :: rest

def encode_ota_v2 (h : OTAUpdateV2Header) : List Nat :=
  le_bytes 8 h.source_revision ++
    (le_bytes 8 h.target_revision ++
      (le_bytes 2 h.entries.length ++ encode_ota_v2_entries h.entries))

def decode_ota_v2 (bs : List Nat) : Except KTError OTAUpdateV2Header :=
  if bs.length < OTA_UPDATE_V2_BLOCK_SIZE then .error .InvalidHeader
  else do
    let entries ← decode_ota_v2_entries (read_le (((bs.drop 8).drop 8).take 2))
      (((bs.drop 8).drop 8).drop 2)
    .ok
      { source_revision := read_le (bs.take 8)
        target_revision := read_le ((bs.drop 8).take 8)
        entries := entries }

/-! ## Filename classification, from the macros in kindle_tool.h lines 104-112 -/

/-- ASCII lowercase conversion, as tolower behaves on the ASCII range used by
strncasecmp. -/
def ascii_lower (c : Char) : Char :=
  if 65 ≤ c.toNat ∧ c.toNat ≤ 90 then Char.ofNat (c.toNat + 32) else c

/-- Equality of two character regions under strncasecmp semantics:
case-insensitive comparison. -/
def strncasecmp_eq (a b : List Char) : Bool :=
  a.map ascii_lower == b.map ascii_lower

/-- IS_SCRIPT macro (line 104): the last 4 characters equal ".ffs",
case-insensitively. -/
def IS_SCRIPT (f : List Char) : Bool :=
  strncasecmp_eq (f.drop (f.length - 4)) ".ffs".toList

/-- IS_SHELL macro (line 105): the last 3 characters equal ".sh",
case-insensitively. -/
def IS_SHELL (f : List Char) : Bool :=
  strncasecmp_eq (f.drop (f.length - 3)) ".sh".toList

/-- IS_SIG macro (line 106): the last 4 characters equal ".sig",
case-insensitively. -/
def IS_SIG (f : List Char) : Bool :=
  strncasecmp_eq (f.drop (f.length - 4)) ".sig".toList

/-- IS_BIN macro (line 107): the last 4 characters equal ".bin",
case-insensitively. -/
def IS_BIN (f : List Char) : Bool :=
  strncasecmp_eq (f.drop (f.length - 4)) ".bin".toList

/-- IS_STGZ macro (line 108): the last 5 characters equal ".stgz",
case-insensitively. -/
def IS_STGZ (f : List Char) : Bool :=
  strncasecmp_eq (f.drop (f.length - 5)) ".stgz".toList

/-- IS_TGZ macro (line 109): the last 4 characters equal ".tgz",
case-insensitively. -/
def IS_TGZ (f : List Char) : Bool :=
  strncasecmp_eq (f.drop (f.length - 4)) ".tgz".toList

/-- IS_TARBALL macro (line 110): the last 7 characters equal ".tar.gz",
case-insensitively. -/
def IS_TARBALL (f : List Char) : Bool :=
  strncasecmp_eq (f.drop (f.length - 7)) ".tar.gz".toList

/-- IS_DAT macro (line 111): the last 4 characters equal ".dat",
case-insensitively. -/
def IS_DAT (f : List Char) : Bool :=
  strncasecmp_eq (f.drop (f.length - 4)) ".dat".toList

/-- IS_UIMAGE macro (line 112): the last 6 characters equal "uImage",
case-sensitively (strncmp, not strncasecmp). -/
def IS_UIMAGE (f : List Char) : Bool :=
  f.drop (f.length - 6) == "uImage".toList

/-! ## Serial-number device code extraction -/

/-- Modelled from the spec: per-character digit value over the alphanumeric
alphabet 0-9A-Z used by from_base. -/
def base_digit (c : Char) : Nat :=
  if c.isDigit then c.toNat - 48 else c.toNat - 55

/-- Modelled from the spec: the body of from_base (declared in kindle_tool.h
line 550) is not under src/; positional value of a digit string in the given
base. -/
def from_base (s : List Char) (base : Nat) : Nat :=
  s.foldl (fun acc c => acc * base + base_digit c) 0

/-- Modelled from the spec: device code extraction from a 16-character serial
number: when the fifth character (index 4) is not a decimal digit, the
three-character base-32 device code sits at indices 3 to 5 (the half-open
character range 3..6); otherwise the legacy single-byte code is the two
hexadecimal characters at indices 1 and 2. -/
def encode_device_from_serial (serial : List Char) : Nat :=
  if ¬ (serial.getD 4 '0').isDigit then from_base ((serial.drop 3).take 3) 32
  else from_base ((serial.drop 1).take 2) 16

/-! ## Process-wide state and the ID catalog lookups -/

/-- The process-wide globals declared in kindle_tool.h lines 538-548: the
cached KT_WITH_UNKNOWN_DEVCODES flag (an unsigned int), the shell metadata
dump pointer and the temp directory. -/
structure ProcState where
  kt_with_unknown_devcodes : Nat
  kt_pkg_metadata_dump : Option String
  kt_tempdir : String
deriving DecidableEq, Repr

/-- The named Device enum member values from kindle_tool.h lines 195-397,
excluding the KindleUnknown = 0x00 sentinel. -/
def known_device_codes : List Nat := [
  0x01, 0x02, 0x03, 0x04, 0x05, 0x09, 0x08, 0x06, 0x0A, 0x0E,
  0x0F, 0x11, 0x10, 0x12, 0x23, 0x24, 0x1B, 0x1C, 0x1D, 0x1F,
  0x20, 0xD4, 0x5A, 0xD5, 0xD6, 0xD7, 0xD8, 0xF2, 0x17, 0x60,
  0xF4, 0xF9, 0x62, 0x61, 0x5F, 0xC6, 0x13, 0x16, 0x21, 0x54,
  0x2A, 0x4F, 0x52, 0x53, 0x07, 0x0B, 0x0C, 0x0D, 0x99, 0xDD,
  0x201, 0x202, 0x204, 0x205, 0x206, 0x207, 0x26B, 0x26C, 0x26D, 0x26E,
  0x26F, 0x270, 0x293, 0x294, 0x6F7B, 0x20C, 0x20D, 0x219, 0x21A, 0x21B,
  0x21C, 0x1BC, 0x269, 0x26A, 0x295, 0x296, 0x297, 0x298, 0x2E1, 0x2E2,
  0x2E6, 0x2E7, 0x2E8, 0x341, 0x342, 0x343, 0x344, 0x347, 0x34A, 0x2F7,
  0x361, 0x362, 0x363, 0x364, 0x365, 0x366, 0x367, 0x372, 0x373, 0x374,
  0x375, 0x376, 0x402, 0x403, 0x4D8, 0x4D9, 0x4DA, 0x4DB, 0x4DC, 0x4DD,
  0x2F4, 0x414, 0x3CF, 0x3D0, 0x3D1, 0x3D2, 0x3AB, 0x434, 0x3D8, 0x3D7,
  0x3D6, 0x3D5, 0x3D4, 0x690, 0x700, 0x6FF, 0x7AD, 0x829, 0x82A, 0x971,
  0x972, 0x9B3, 0x84D, 0x8BB, 0x86A, 0x958, 0x957, 0x7F1, 0x84C, 0x8F2,
  0x974, 0x8C3, 0x847, 0x975, 0x874, 0x875, 0x8E0, 0xE85, 0xE86, 0xE84,
  0xE83, 0x2909, 0xE82, 0xE75, 0xC89, 0xC86, 0xC7F, 0xC7E, 0xE2A, 0xE25,
  0xE23, 0xE28, 0xE45, 0xE5A, 0xFA0, 0xFA1, 0xFE5, 0xF9D, 0xFE4, 0xFE3,
  0x102E, 0x102D, 0xE29, 0xE24, 0xE2B, 0xE26, 0xE22, 0xC9F, 0xE27, 0xE5B,
  0xE46, 0x10A6, 0x10A5, 0x11D7]

/-- The Platform enum member values from kindle_tool.h lines 399-416. -/
def known_platform_codes : List Nat :=
  [0x00, 0x01, 0x02, 0x03, 0x04, 0x05, 0x06, 0x07, 0x08, 0x09, 0x0A, 0x0B, 0x0C, 0x0D, 0x0E]

/-- The Board enum member values from kindle_tool.h lines 418-445. -/
def known_board_codes : List Nat := [0x00, 0x03, 0x05]

/-- Modelled from the spec and from the const attribute on its declaration
(kindle_tool.h line 556, so it may read no global state): the pure catalog
lookup from a device code to its short name, none for codes outside the
catalog.  The name strings live in the data catalog translation unit that is
not under src/ and are modelled as the decimal spelling of the code, which no
claim inspects; the known-code set is the Device enum from src. -/
def convert_device_id (_ : ProcState) (dev : Nat) : Option String :=
  if dev ∈ known_device_codes then some (toString dev) else none

/-- Modelled from the spec and from the const attribute on its declaration
(kindle_tool.h line 557): platform code to name, none outside the catalog. -/
def convert_platform_id (_ : ProcState) (plat : Nat) : Option String :=
  if plat ∈ known_platform_codes then some (toString plat) else none

/-- Modelled from the spec and from the const attribute on its declaration
(kindle_tool.h line 558): board code to name, none outside the catalog. -/
def convert_board_id (_ : ProcState) (board : Nat) : Option String :=
  if board ∈ known_board_codes then some (toString board) else none

/-- get_bundle_version with the process state made explicit: its declaration
(kindle_tool.h line 559) is pure, and the magic-table lookup consults no
global state. -/
def get_bundle_version_in (_ : ProcState) (magic : String) : BundleVersion :=
  get_bundle_version magic

/-- Uppercase hexadecimal digit character. -/
def hex_digit_char (n : Nat) : Char :=
  if n < 10 then Char.ofNat (48 + n) else Char.ofNat (55 + n)

/-- Four uppercase hexadecimal digits of a 16-bit value. -/
def hex4 (n : Nat) : List Char :=
  [hex_digit_char (n / 4096 % 16), hex_digit_char (n / 256 % 16),
    hex_digit_char (n / 16 % 16), hex_digit_char (n % 16)]

/-- Modelled from the spec: caller-level device-code resolution around the
const convert_device_id: a known code resolves to its catalog name; an
unknown code resolves to the substitute string 0xNNNN when the relaxed flag
kt_with_unknown_devcodes (cached from the KT_WITH_UNKNOWN_DEVCODES
environment variable) is nonzero, and to the UnknownDevice error when the
flag is zero. -/
def lookup_device_name (s : ProcState) (dev : Nat) : Except KTError String :=
  match convert_device_id s dev with
  | some name => .ok name
  | none =>
    if s.kt_with_unknown_devcodes ≠ 0 then .ok (String.mk ('0' :: 'x' :: hex4 dev))
    else .error .UnknownDevice

/-! ## Signer.

Modelled from the spec: the RSA primitives are supplied by nettle, external
to this repository; only nettle_rsa_privkey_from_pem is declared under src/
(kindle_tool.h line 569).  A keypair is modelled by its two distinct primes,
the public exponent and a matching private exponent; signing raises the
integer representative of the PKCS1-v1.5-encoded SHA-256 digest to the
private exponent modulo n, and verification checks the public-exponent power
of the signature against the expected representative. -/

structure RSAKeyPair where
  p : Nat
  q : Nat
  e : Nat
  d : Nat
deriving DecidableEq, Repr

/-- The RSA modulus. -/
def RSAKeyPair.n (k : RSAKeyPair) : Nat := k.p * k.q

/-- A valid RSA keypair: distinct primes and exponents that are inverse to
each other modulo (p-1)(q-1). -/
def RSAKeyPair.wf (k : RSAKeyPair) : Prop :=
  k.p.Prime ∧ k.q.Prime ∧ k.p ≠ k.q ∧ k.e * k.d % ((k.p - 1) * (k.q - 1)) = 1

instance (k : RSAKeyPair) : Decidable k.wf := by
  unfold RSAKeyPair.wf
  infer_instance

/-- RSA signing primitive: m^d mod n. -/
def rsa_sign (k : RSAKeyPair) (m : Nat) : Nat :=
  m ^ k.d % k.n

/-- RSA verification primitive: accept when sig^e mod n equals the expected
representative. -/
def rsa_verify (k : RSAKeyPair) (m sig : Nat) : Bool :=
  sig ^ k.e % k.n == m % k.n

/-- Octet length of an RSA modulus (number of bytes of its big-endian
representation). -/
def modulus_octets (n : Nat) : Nat := Nat.log 256 n + 1

/-- Raw signature octet string: the signature value written big-endian on
exactly as many bytes as the modulus occupies. -/
def raw_signature (k : RSAKeyPair) (m : Nat) : List Nat :=
  be_bytes (modulus_octets k.n) (rsa_sign k m)

/-- Big-endian value of a byte list. -/
def read_be (bs : List Nat) : Nat := read_le bs.reverse

/-! ## Digest models.

Modelled from the spec: the MD5 and SHA-256 algorithms are supplied by
nettle (external to this repository; only the md5_sum/sha256_sum wrappers
are declared under src/).  They are modelled as executable 128-bit and
256-bit fingerprints of the stream; the claims exercise only that the same
stream yields the same digest. -/

def md5_model (bs : List Nat) : Nat :=
  bs.foldl (fun acc b => (acc * 257 + b + 1) % 2 ^ 128) 7

def sha256_model (bs : List Nat) : Nat :=
  bs.foldl (fun acc b => (acc * 263 + b + 1) % 2 ^ 256) 11

/-- Lowercase hexadecimal digit as an ASCII byte value. -/
def hex_lower_byte (d : Nat) : Nat :=
  if d < 10 then 48 + d else 87 + d

/-- The w most significant hexadecimal digits of v, as ASCII byte values
(most significant first). -/
def hex_bytes_lower : Nat → Nat → List Nat
  | 0, _ => []
  | w + 1, v => hex_lower_byte (v / 16 ^ w % 16) :: hex_bytes_lower w v

/-- The 32-character lowercase hex MD5 digest of a stream, as ASCII bytes,
as embedded in update headers. -/
def md5_hex (bs : List Nat) : List Nat :=
  hex_bytes_lower MD5_HASH_LENGTH (md5_model bs)

/-! ## Archive pipeline.

Modelled from the spec: the tar+gzip container is delegated to libarchive
(external to this repository).  The inner archive is modelled as a
count-prefixed sequence of entries, each a length-prefixed path and
length-prefixed contents; composition appends, for every payload file, a
sibling .sig entry holding the raw RSA signature over the file's SHA-256
digest, and a final update-filelist.dat manifest. -/

/-- A file of the input tree: path characters and content bytes. -/
structure KTFile where
  path : List Char
  contents : List Nat
deriving DecidableEq, Repr

/-- Well-formed payload file: bounded path and contents, byte-valued
path characters and contents. -/
def KTFile.wf (f : KTFile) : Prop :=
  f.path.length < 2 ^ 16 ∧ (∀ c ∈ f.path, c.toNat < 256) ∧
    f.contents.length < 2 ^ 48 ∧ ∀ b ∈ f.contents, b < 256

instance (f : KTFile) : Decidable f.wf := by
  unfold KTFile.wf
  infer_instance

/-- Serialization of one archive entry. -/
def tar_entry (f : KTFile) : List Nat :=
  le_bytes 4 f.path.length ++
    (f.path.map Char.toNat ++ (le_bytes 8 f.contents.length ++ f.contents))

def tar_entries : List KTFile → List Nat
  | [] => []
  | f :: rest => tar_entry f ++ tar_entries rest

/-- The modelled tar+gzip composition of an entry list. -/
def targz (t : List KTFile) : List Nat :=
  le_bytes 4 t.length ++ tar_entries t

/-- The modelled tar+gzip decomposition: read n length-prefixed entries. -/
def untar_entries : Nat → List Nat → Except KTError (List KTFile)
  | 0, _ => .ok []
  | n + 1, bs =>
    if bs.length < 4 then .error .Truncated
    else if (bs.drop 4).length < read_le (bs.take 4) then .error .Truncated
    else if ((bs.drop 4).drop (read_le (bs.take 4))).length < 8 then .error .Truncated
    else if (((bs.drop 4).drop (read_le (bs.take 4))).drop 8).length <
        read_le (((bs.drop 4).drop (read_le (bs.take 4))).take 8) then .error .Truncated
    else do
      let rest ← untar_entries n
        ((((bs.drop 4).drop (read_le (bs.take 4))).drop 8).drop
          (read_le (((bs.drop 4).drop (read_le (bs.take 4))).take 8)))
      .ok (KTFile.mk (((bs.drop 4).take (read_le (bs.take 4))).map Char.ofNat)
        ((((bs.drop 4).drop (read_le (bs.take 4))).drop 8).take
          (read_le (((bs.drop 4).drop (read_le (bs.take 4))).take 8))) :: rest)

def untargz (bs : List Nat) : Except KTError (List KTFile) :=
  if bs.length < 4 then .error .Truncated
  else untar_entries (read_le (bs.take 4)) (bs.drop 4)

/-- A file counts as the install script when its name has a .ffs or .sh
suffix. -/
def is_install_script (f : KTFile) : Bool :=
  IS_SCRIPT f.path || IS_SHELL f.path

/-- Manifest type word of an entry, from its path suffix. -/
def file_type_word (f : KTFile) : List Char :=
  if IS_SCRIPT f.path || IS_SHELL f.path then "script".toList
  else if IS_BIN f.path then "bin".toList
  else if IS_UIMAGE f.path then "uimage".toList
  else "file".toList

/-- ASCII bytes of a string. -/
def str_bytes (s : String) : List Nat := s.toList.map Char.toNat

/-- One manifest record: type, mode, uid, gid, path, md5, LF. -/
def manifest_line (f : KTFile) : List Nat :=
  (file_type_word f).map Char.toNat ++ str_bytes " 0644 0 0 " ++
    f.path.map Char.toNat ++ (32 :: md5_hex f.contents) ++ [10]

def manifest_bytes : List KTFile → List Nat
  | [] => []
  | f :: rest => manifest_line f ++ manifest_bytes rest

/-- The generated signature sibling of a payload file. -/
def sig_file (k : RSAKeyPair) (f : KTFile) : KTFile :=
  KTFile.mk (f.path ++ ".sig".toList)
    (raw_signature k (sha256_model f.contents % k.n))

/-- Payload entries interleaved with their signature siblings. -/
def signed_files (k : RSAKeyPair) : List KTFile → List KTFile
  | [] => []
  | f :: rest => f :: sig_file k f :: signed_files k rest

/-- The manifest entry, written last. -/
def manifest_file (t : List KTFile) : KTFile :=
  KTFile.mk INDEX_FILE_NAME.toList (manifest_bytes t)

/-- Complete inner-archive entry list for a payload tree. -/
def archive_files (k : RSAKeyPair) (t : List KTFile) : List KTFile :=
  signed_files k t ++ [manifest_file t]

/-- Entries produced by archive composition rather than payload: signature
siblings and the manifest. -/
def is_generated_entry (f : KTFile) : Bool :=
  IS_SIG f.path || f.path == INDEX_FILE_NAME.toList

/-! ## Bundle orchestrator.

Modelled from the spec: kindle_create_main and kindle_convert_main are only
declared under src/ (kindle_tool.h lines 563-567); the create and convert
flows are modelled from the spec's data-flow and state machine:
create = inputs, tar+gzip, header prefix, obfuscate, optional signed
envelope; convert = verify envelope, strip header, digest check,
deobfuscate, emit the inner archive. -/

/-- Raw signature size for a certificate slot, from the constants in
kindle_tool.h lines 94-96; 0 for an unknown slot. -/
def cert_size (c : Nat) : Nat :=
  if c = CertificateDeveloper then CERTIFICATE_DEV_SIZE
  else if c = Certificate1K then CERTIFICATE_1K_SIZE
  else if c = Certificate2K then CERTIFICATE_2K_SIZE
  else 0

/-- Magic written by create for each supported target kind. -/
def magic_for : BundleVersion → Option String
  | .OTAUpdate => some "FC02"
  | .OTAUpdateV2 => some "FC04"
  | .RecoveryUpdate => some "FB01"
  | .RecoveryUpdateV2 => some "FB02"
  | _ => none

/-- Caller-supplied creation options. -/
structure CreateOptions where
  kind : BundleVersion
  source_revision : Nat
  target_revision : Nat
  devices : List Nat
  optional : Nat
  critical : Nat
  magic_1 : Nat
  magic_2 : Nat
  minor : Nat
  platform : Nat
  board : Nat
  keypair : RSAKeyPair
  cert_number : Nat
  sign_envelope : Bool

/-- Header block for the target kind, carrying the digest of the
post-obfuscation payload. -/
def build_header (o : CreateOptions) (digest : List Nat) : Except KTError (List Nat) :=
  match o.kind with
  | .OTAUpdate => .ok (encode_ota
      { source_revision := o.source_revision
        target_revision := o.target_revision
        device := o.devices.headD 0
        optional := o.optional
        unused := 0
        md5_sum := digest })
  | .OTAUpdateV2 => .ok (encode_ota_v2
      { source_revision := o.source_revision
        target_revision := o.target_revision
        entries := o.devices.map fun d =>
          { device := d, critical := o.critical, unused := 0, md5_sum := digest } })
  | .RecoveryUpdate => .ok (encode_recovery
      { unused := List.replicate 12 0
        md5_sum := digest
        magic_1 := o.magic_1
        magic_2 := o.magic_2
        minor := o.minor
        device := o.devices.headD 0 })
  | .RecoveryUpdateV2 => .ok (encode_recovery_h2
      { foo := List.replicate 4 0
        target_revision := o.target_revision
        md5_sum := digest
        magic_1 := o.magic_1
        magic_2 := o.magic_2
        minor := o.minor
        platform := o.platform
        header_rev := 2
        board := o.board })
  | _ => .error .UnsupportedKind

/-- The create flow: require exactly one install script, build the inner
archive, obfuscate, prefix magic and header carrying the digest of the
obfuscated payload, and optionally wrap in a signed envelope. -/
def kindle_create (o : CreateOptions) (tree : List KTFile) : Except KTError (List Nat) :=
  if (tree.filter is_install_script).length = 0 then .error .MissingScript
  else if 2 ≤ (tree.filter is_install_script).length then .error .AmbiguousScript
  else
    match magic_for o.kind with
    | none => .error .UnsupportedKind
    | some magic => do
      let payload := md (targz (archive_files o.keypair tree))
      let hdr ← build_header o (md5_hex payload)
      let bundle := str_bytes magic ++ (hdr ++ payload)
      if o.sign_envelope then
        .ok (str_bytes "SP01" ++
          (encode_signature (UpdateSignatureHeader.mk o.cert_number) ++
            (be_bytes (cert_size o.cert_number)
                (rsa_sign o.keypair (sha256_model bundle % o.keypair.n)) ++
              bundle)))
      else .ok bundle

/-- ASCII string of a byte list. -/
def ascii_str (bs : List Nat) : String :=
  String.mk (bs.map Char.ofNat)

/-- Convert flow for an OTA V1 body (header block plus payload). -/
def convert_ota_body (s : ProcState) (body : List Nat) : Except KTError (List Nat) := do
  let h ← decode_ota body
  let _ ← lookup_device_name s h.device
  if h.md5_sum = md5_hex (body.drop OTA_UPDATE_BLOCK_SIZE) then
    .ok (dm (body.drop OTA_UPDATE_BLOCK_SIZE))
  else .error .IntegrityFailure

/-- Resolve every device named by an OTA V2 header. -/
def check_devices (s : ProcState) : List OTAUpdateV2Entry → Except KTError Unit
  | [] => .ok ()
  | e :: rest => do
    let _ ← lookup_device_name s e.device
    check_devices s rest

/-- Convert flow for an OTA V2 body. -/
def convert_ota_v2_body (s : ProcState) (body : List Nat) : Except KTError (List Nat) := do
  let h ← decode_ota_v2 body
  let _ ← check_devices s h.entries
  let payload := body.drop (OTA_UPDATE_V2_BLOCK_SIZE +
    OTA_UPDATE_V2_PART_2_BLOCK_SIZE * h.entries.length)
  if h.entries.all fun e => e.md5_sum == md5_hex payload then .ok (dm payload)
  else .error .IntegrityFailure

/-- The header-revision flag of a recovery header block, at byte offset 60
of the block (the header_rev field of the H2 layout; zero padding there
under the V1 layout). -/
def recovery_header_rev (body : List Nat) : Nat :=
  read_le (((((((body.drop 12).drop 32).drop 4).drop 4).drop 4).drop 4).take 4)

/-- Convert flow for a recovery body: the in-header revision flag selects
the V1 or H2 layout. -/
def convert_recovery_body (s : ProcState) (body : List Nat) : Except KTError (List Nat) :=
  if 2 ≤ recovery_header_rev body then do
    let h ← decode_recovery_h2 body
    match convert_platform_id s h.platform with
    | none => .error .UnknownPlatform
    | some _ =>
      match convert_board_id s h.board with
      | none => .error .UnknownBoard
      | some _ =>
        if h.md5_sum = md5_hex (body.drop RECOVERY_UPDATE_BLOCK_SIZE) then
          .ok (dm (body.drop RECOVERY_UPDATE_BLOCK_SIZE))
        else .error .IntegrityFailure
  else do
    let h ← decode_recovery body
    let _ ← lookup_device_name s h.device
    if h.md5_sum = md5_hex (body.drop RECOVERY_UPDATE_BLOCK_SIZE) then
      .ok (dm (body.drop RECOVERY_UPDATE_BLOCK_SIZE))
    else .error .IntegrityFailure

/-- Dispatch on the magic-selected kind for a non-envelope body. -/
def convert_body (s : ProcState) (kind : BundleVersion) (body : List Nat) :
    Except KTError (List Nat) :=
  match kind with
  | .OTAUpdate => convert_ota_body s body
  | .OTAUpdateV2 => convert_ota_v2_body s body
  | .RecoveryUpdate => convert_recovery_body s body
  | .RecoveryUpdateV2 => convert_recovery_body s body
  | _ => .error .UnsupportedKind

/-- The envelope arm of convert, applied to the bytes after the SP01 magic:
decode the signature header, check the slot, verify the RSA signature over
the wrapped body, and convert the single inner bundle. -/
def convert_envelope_body (s : ProcState) (k : RSAKeyPair) (bs : List Nat) :
    Except KTError (List Nat) := do
  let h ← decode_signature bs
  if cert_size h.certificate_number = 0 then .error .SlotMismatch
  else if rsa_verify k
      (sha256_model ((bs.drop UPDATE_SIGNATURE_BLOCK_SIZE).drop
        (cert_size h.certificate_number)) % k.n)
      (read_be ((bs.drop UPDATE_SIGNATURE_BLOCK_SIZE).take
        (cert_size h.certificate_number))) then
    convert_body s
      (get_bundle_version (ascii_str
        (((bs.drop UPDATE_SIGNATURE_BLOCK_SIZE).drop
          (cert_size h.certificate_number)).take MAGIC_NUMBER_LENGTH)))
      (((bs.drop UPDATE_SIGNATURE_BLOCK_SIZE).drop
        (cert_size h.certificate_number)).drop MAGIC_NUMBER_LENGTH)
  else .error .BadSignature

/-- The convert flow: detect the magic, unwrap and verify a signature
envelope when present, then decode the header, check the named identifiers
and the digest, strip the header and deobfuscate, emitting the inner
archive. -/
def kindle_convert (s : ProcState) (k : RSAKeyPair) (bs : List Nat) :
    Except KTError (List Nat) :=
  match get_bundle_version (ascii_str (bs.take MAGIC_NUMBER_LENGTH)) with
  | .UnknownUpdate => .error .InvalidMagic
  | .UpdateSignature => convert_envelope_body s k (bs.drop MAGIC_NUMBER_LENGTH)
  | kind => convert_body s kind (bs.drop MAGIC_NUMBER_LENGTH)

/-- Convert followed by decomposition of the inner archive, recovering the
payload tree (the generated signature siblings and the manifest are
archive-composition products). -/
def kindle_convert_tree (s : ProcState) (k : RSAKeyPair) (bs : List Nat) :
    Except KTError (List KTFile) := do
  let inner ← kindle_convert s k bs
  let files ← untargz inner
  .ok (files.filter fun f => ! is_generated_entry f)

/-- Valid input tree for create: well-formed files, none of them looking
like generated archive entries, and exactly one install script. -/
def tree_wf (t : List KTFile) : Prop :=
  (∀ f ∈ t, f.wf) ∧ (∀ f ∈ t, is_generated_entry f = false) ∧
    (t.filter is_install_script).length = 1 ∧ t.length < 2 ^ 30

instance (t : List KTFile) : Decidable (tree_wf t) := by
  unfold tree_wf
  infer_instance

/-- Valid creation options: a supported target kind, bounded fields,
catalogued devices, platform and board, a valid keypair of bounded modulus,
and a certificate slot matching the modulus size when an envelope is
requested. -/
def opts_wf (o : CreateOptions) : Prop :=
  (o.kind = .OTAUpdate ∨ o.kind = .OTAUpdateV2 ∨ o.kind = .RecoveryUpdate ∨
      o.kind = .RecoveryUpdateV2) ∧
    o.source_revision < 2 ^ 32 ∧ o.target_revision < 2 ^ 32 ∧
    o.devices ≠ [] ∧ o.devices.length < 2 ^ 16 ∧
    (∀ d ∈ o.devices, d ∈ known_device_codes) ∧
    o.optional < 256 ∧ o.critical < 256 ∧
    o.magic_1 < 2 ^ 32 ∧ o.magic_2 < 2 ^ 32 ∧ o.minor < 2 ^ 32 ∧
    o.platform ∈ known_platform_codes ∧ o.board ∈ known_board_codes ∧
    o.keypair.wf ∧ modulus_octets o.keypair.n < 2 ^ 16 ∧
    (o.sign_envelope = true →
      modulus_octets o.keypair.n = cert_size o.cert_number ∧
        cert_size o.cert_number ≠ 0)

end KindleTool

namespace KindleTool

/-! ## Helper lemmas for the codec -/

set_option maxRecDepth 4096 in
theorem mdByte_dmByte (b : Nat) (hb : b < 256) : dmByte (mdByte b) = b := by
  revert b
  decide

set_option maxRecDepth 4096 in
theorem mdByte_lt (b : Nat) (hb : b < 256) : mdByte b < 256 := by
  revert b
  decide

set_option maxRecDepth 4096 in
theorem dmByte_lt (b : Nat) (hb : b < 256) : dmByte b < 256 := by
  revert b
  decide

theorem md_length (x : List Nat) : (md x).length = x.length := by
  have h : x.length / BLOCK_SIZE * BLOCK_SIZE ≤ x.length := Nat.div_mul_le_self _ _
  simp only [md, List.length_append, List.length_map, List.length_take, List.length_drop]
  omega

theorem dm_length (x : List Nat) : (dm x).length = x.length := by
  have h : x.length / BLOCK_SIZE * BLOCK_SIZE ≤ x.length := Nat.div_mul_le_self _ _
  simp only [dm, List.length_append, List.length_map, List.length_take, List.length_drop]
  omega

theorem dm_md (x : List Nat) (hbytes : ∀ b ∈ x, b < 256) : dm (md x) = x := by
  have halign : x.length / BLOCK_SIZE * BLOCK_SIZE ≤ x.length := Nat.div_mul_le_self _ _
  have htake : (x.take (x.length / BLOCK_SIZE * BLOCK_SIZE)).length =
      x.length / BLOCK_SIZE * BLOCK_SIZE := by
    rw [List.length_take, Nat.min_eq_left halign]
  have hmap : ((x.take (x.length / BLOCK_SIZE * BLOCK_SIZE)).map mdByte).length =
      x.length / BLOCK_SIZE * BLOCK_SIZE := by
    rw [List.length_map]
    exact htake
  simp only [dm]
  rw [md_length x]
  simp only [md]
  rw [List.take_left' hmap, List.drop_left' hmap, List.map_map]
  have hid : (x.take (x.length / BLOCK_SIZE * BLOCK_SIZE)).map (dmByte ∘ mdByte) =
      (x.take (x.length / BLOCK_SIZE * BLOCK_SIZE)).map id := by
    apply List.map_congr_left
    intro b hb
    exact mdByte_dmByte b (hbytes b (List.mem_of_mem_take hb))
  rw [hid, List.map_id, List.take_append_drop]

/-- Claim C2: for every byte sequence of length at least 64, dm after md is
the identity (in particular on the 64-byte-aligned portion), and both
transforms pass the trailing partial block through unchanged. -/
theorem codec_roundtrip (x : List Nat) (hbytes : ∀ b ∈ x, b < 256)
    (_ : BLOCK_SIZE ≤ x.length) :
    dm (md x) = x ∧
    (md x).drop (x.length / BLOCK_SIZE * BLOCK_SIZE) =
      x.drop (x.length / BLOCK_SIZE * BLOCK_SIZE) ∧
    (dm x).drop (x.length / BLOCK_SIZE * BLOCK_SIZE) =
      x.drop (x.length / BLOCK_SIZE * BLOCK_SIZE) := by
  have halign : x.length / BLOCK_SIZE * BLOCK_SIZE ≤ x.length := Nat.div_mul_le_self _ _
  have htake : (x.take (x.length / BLOCK_SIZE * BLOCK_SIZE)).length =
      x.length / BLOCK_SIZE * BLOCK_SIZE := by
    rw [List.length_take, Nat.min_eq_left halign]
  have hmap : ((x.take (x.length / BLOCK_SIZE * BLOCK_SIZE)).map mdByte).length =
      x.length / BLOCK_SIZE * BLOCK_SIZE := by
    rw [List.length_map]
    exact htake
  have hmap' : ((x.take (x.length / BLOCK_SIZE * BLOCK_SIZE)).map dmByte).length =
      x.length / BLOCK_SIZE * BLOCK_SIZE := by
    rw [List.length_map]
    exact htake
  refine ⟨dm_md x hbytes, ?_, ?_⟩
  · simp only [md]
    rw [List.drop_left' hmap]
  · simp only [dm]
    rw [List.drop_left' hmap']

/-- Witness for C2 at a concrete 65-byte input. -/
theorem codec_roundtrip_witness :
    (∀ b ∈ List.replicate 65 7, b < 256) ∧ BLOCK_SIZE ≤ (List.replicate 65 7).length ∧
    dm (md (List.replicate 65 7)) = List.replicate 65 7 :=
  ⟨by decide, by decide,
    (codec_roundtrip (List.replicate 65 7) (by decide) (by decide)).1⟩

/-! ## Bundle version theorems -/

/-- Claim C3: the four-byte magic determines the bundle kind: SP01 maps to
UpdateSignature, FC02 and FD03 to OTAUpdate, FC04, FD04 and FL01 to
OTAUpdateV2, FB01 and FB02 to RecoveryUpdate (refined to RecoveryUpdateV2
exactly when the in-header revision flag is at least 2), and every
unrecognized magic to UnknownUpdate. -/
theorem bundle_version_of_magic :
    get_bundle_version "SP01" = .UpdateSignature ∧
    get_bundle_version "FC02" = .OTAUpdate ∧
    get_bundle_version "FD03" = .OTAUpdate ∧
    get_bundle_version "FC04" = .OTAUpdateV2 ∧
    get_bundle_version "FD04" = .OTAUpdateV2 ∧
    get_bundle_version "FL01" = .OTAUpdateV2 ∧
    get_bundle_version "FB01" = .RecoveryUpdate ∧
    get_bundle_version "FB02" = .RecoveryUpdate ∧
    (∀ magic hrev, 2 ≤ hrev → get_bundle_version magic = .RecoveryUpdate →
      effective_bundle_version magic hrev = .RecoveryUpdateV2) ∧
    (∀ magic hrev, hrev < 2 →
      effective_bundle_version magic hrev = get_bundle_version magic) ∧
    (∀ magic, magic ∉ known_magics → get_bundle_version magic = .UnknownUpdate) := by
  refine ⟨by decide, by decide, by decide, by decide, by decide, by decide, by decide,
    by decide, ?_, ?_, ?_⟩
  · intro magic hrev h2 hrec
    simp [effective_bundle_version, hrec, h2]
  · intro magic hrev hlt
    simp only [effective_bundle_version]
    have : ¬(get_bundle_version magic = .RecoveryUpdate ∧ 2 ≤ hrev) := by
      rintro ⟨_, h⟩
      omega
    simp [this]
  · intro magic hmem
    unfold get_bundle_version
    unfold known_magics at hmem
    simp only [List.mem_cons, List.not_mem_nil, or_false] at hmem
    push_neg at hmem
    obtain ⟨h1, h2, h3, h4, h5, h6, h7, h8⟩ := hmem
    simp [h1, h2, h3, h4, h5, h6, h7, h8]

/-- Witness for C3 at concrete inputs: FB01 with header revision 2 is
RecoveryUpdateV2, and the magic QQ99 is unrecognized. -/
theorem bundle_version_of_magic_witness :
    effective_bundle_version "FB01" 2 = .RecoveryUpdateV2 ∧
    get_bundle_version "QQ99" = .UnknownUpdate :=
  ⟨bundle_version_of_magic.2.2.2.2.2.2.2.2.1 "FB01" 2 (by decide) (by decide),
    bundle_version_of_magic.2.2.2.2.2.2.2.2.2.2 "QQ99" (by decide)⟩

/-! ## Header block size theorems -/

/-- Counterexample to claim C4: for Recovery bundles the header block that
follows the 4-byte magic (the union member recovery_header_data, of size
RECOVERY_UPDATE_BLOCK_SIZE) is 131068 bytes, not 131072; 131072
(RECOVERY_BLOCK_SIZE) is the total frame size including the magic. -/
theorem recovery_header_body_not_131072 :
    header_body_size .RecoveryUpdate = 131068 ∧
    header_body_size .RecoveryUpdate ≠ 131072 ∧
    MAGIC_NUMBER_LENGTH + header_body_size .RecoveryUpdate = RECOVERY_BLOCK_SIZE := by
  decide

/-- Claim C4 as amended: the header block following the 4-byte magic has a
constant size determined solely by the bundle kind: 60 bytes for OTA and
signature headers and 131068 bytes for Recovery headers, so that magic plus
header block totals RECOVERY_BLOCK_SIZE = 131072 for Recovery bundles. -/
theorem header_body_size_constant :
    header_body_size .OTAUpdate = 60 ∧
    header_body_size .OTAUpdateV2 = 60 ∧
    header_body_size .UpdateSignature = 60 ∧
    header_body_size .RecoveryUpdate = 131068 ∧
    header_body_size .RecoveryUpdateV2 = 131068 ∧
    MAGIC_NUMBER_LENGTH + header_body_size .RecoveryUpdate = RECOVERY_BLOCK_SIZE ∧
    MAGIC_NUMBER_LENGTH + header_body_size .RecoveryUpdateV2 = RECOVERY_BLOCK_SIZE := by
  decide

/-! ## Little-endian helper lemmas -/

theorem le_bytes_length (w v : Nat) : (le_bytes w v).length = w := by
  induction w generalizing v with
  | zero => rfl
  | succ w ih => simp [le_bytes, ih]

theorem read_le_le_bytes (w v : Nat) (h : v < 256 ^ w) : read_le (le_bytes w v) = v := by
  induction w generalizing v with
  | zero =>
    simp only [le_bytes, read_le]
    omega
  | succ w ih =>
    have hdiv : v / 256 < 256 ^ w := by
      rw [Nat.div_lt_iff_lt_mul (by norm_num)]
      calc v < 256 ^ (w + 1) := h
        _ = 256 ^ w * 256 := by rw [pow_succ]
    simp only [le_bytes, read_le, ih _ hdiv]
    omega

theorem le_bytes_lt (w v : Nat) : ∀ b ∈ le_bytes w v, b < 256 := by
  induction w generalizing v with
  | zero => simp [le_bytes]
  | succ w ih =>
    simp only [le_bytes, List.mem_cons]
    rintro b (rfl | hb)
    · omega
    · exact ih _ b hb

theorem read_le_singleton (b : Nat) : read_le [b] = b := by
  simp [read_le]

/-! ## Header codec roundtrip lemmas -/

theorem encode_signature_length (h : UpdateSignatureHeader) :
    (encode_signature h).length = UPDATE_SIGNATURE_BLOCK_SIZE := by
  simp [encode_signature, le_bytes_length, UPDATE_SIGNATURE_BLOCK_SIZE]

theorem decode_signature_append (h : UpdateSignatureHeader) (hwf : h.wf)
    (tail : List Nat) :
    decode_signature (encode_signature h ++ tail) = .ok h := by
  have h4 : (le_bytes 4 h.certificate_number).length = 4 := le_bytes_length _ _
  have hlen : ¬ (encode_signature h ++ tail).length < UPDATE_SIGNATURE_BLOCK_SIZE := by
    rw [List.length_append, encode_signature_length]
    omega
  have e32 : (256 : Nat) ^ 4 = 2 ^ 32 := by norm_num
  unfold decode_signature
  rw [if_neg hlen]
  unfold encode_signature
  rw [List.append_assoc]
  rw [List.take_left' h4]
  rw [read_le_le_bytes 4 _ (e32 ▸ hwf)]

theorem decode_encode_signature (h : UpdateSignatureHeader) (hwf : h.wf) :
    decode_signature (encode_signature h) = .ok h := by
  have := decode_signature_append h hwf []
  simpa using this

theorem encode_ota_length (h : OTAUpdateHeader) (hml : h.md5_sum.length = MD5_HASH_LENGTH) :
    (encode_ota h).length = OTA_UPDATE_BLOCK_SIZE := by
  simp [encode_ota, le_bytes_length, hml, MD5_HASH_LENGTH, OTA_UPDATE_BLOCK_SIZE]

theorem decode_ota_append (h : OTAUpdateHeader) (hwf : h.wf) (tail : List Nat) :
    decode_ota (encode_ota h ++ tail) = .ok h := by
  obtain ⟨h1, h2, h3, h4, h5, hmd⟩ := hwf
  have hml : h.md5_sum.length = MD5_HASH_LENGTH := hmd.1
  have hA : (le_bytes 4 h.source_revision).length = 4 := le_bytes_length _ _
  have hB : (le_bytes 4 h.target_revision).length = 4 := le_bytes_length _ _
  have hC : (le_bytes 2 h.device).length = 2 := le_bytes_length _ _
  have hO : ([h.optional] : List Nat).length = 1 := rfl
  have hU : ([h.unused] : List Nat).length = 1 := rfl
  have hlen : ¬ (encode_ota h ++ tail).length < OTA_UPDATE_BLOCK_SIZE := by
    rw [List.length_append, encode_ota_length h hml]
    omega
  have e32 : (256 : Nat) ^ 4 = 2 ^ 32 := by norm_num
  have e16 : (256 : Nat) ^ 2 = 2 ^ 16 := by norm_num
  unfold decode_ota
  rw [if_neg hlen]
  unfold encode_ota
  simp only [List.append_assoc]
  rw [List.take_left' hA, List.drop_left' hA,
    List.take_left' hB, List.drop_left' hB,
    List.take_left' hC, List.drop_left' hC,
    List.take_left' hO, List.drop_left' hO,
    List.take_left' hU, List.drop_left' hU,
    List.take_left' hml]
  rw [read_le_le_bytes 4 _ (e32 ▸ h1), read_le_le_bytes 4 _ (e32 ▸ h2),
    read_le_le_bytes 2 _ (e16 ▸ h3), read_le_singleton, read_le_singleton]

theorem decode_encode_ota (h : OTAUpdateHeader) (hwf : h.wf) :
    decode_ota (encode_ota h) = .ok h := by
  have := decode_ota_append h hwf []
  simpa using this

theorem encode_recovery_length (h : RecoveryUpdateHeader) (hul : h.unused.length = 12)
    (hml : h.md5_sum.length = 32) :
    (encode_recovery h).length = RECOVERY_UPDATE_BLOCK_SIZE := by
  simp only [encode_recovery, List.length_append, le_bytes_length,
    List.length_replicate, hul, hml]
  unfold RECOVERY_UPDATE_BLOCK_SIZE
  omega

theorem decode_recovery_append (h : RecoveryUpdateHeader) (hwf : h.wf) (tail : List Nat) :
    decode_recovery (encode_recovery h ++ tail) = .ok h := by
  obtain ⟨hun, hmd, h1, h2, h3, h4⟩ := hwf
  have hul : h.unused.length = 12 := hun.1
  have hml : h.md5_sum.length = MD5_HASH_LENGTH := hmd.1
  have hm1 : (le_bytes 4 h.magic_1).length = 4 := le_bytes_length _ _
  have hm2 : (le_bytes 4 h.magic_2).length = 4 := le_bytes_length _ _
  have hm3 : (le_bytes 4 h.minor).length = 4 := le_bytes_length _ _
  have hm4 : (le_bytes 4 h.device).length = 4 := le_bytes_length _ _
  have hml' : h.md5_sum.length = 32 := hml
  have hlen : ¬ (encode_recovery h ++ tail).length < RECOVERY_UPDATE_BLOCK_SIZE := by
    rw [List.length_append, encode_recovery_length h hul hml']
    omega
  have e32 : (256 : Nat) ^ 4 = 2 ^ 32 := by norm_num
  unfold decode_recovery
  rw [if_neg hlen]
  unfold encode_recovery
  simp only [List.append_assoc]
  rw [List.take_left' hul, List.drop_left' hul,
    List.take_left' hml, List.drop_left' hml',
    List.take_left' hm1, List.drop_left' hm1,
    List.take_left' hm2, List.drop_left' hm2,
    List.take_left' hm3, List.drop_left' hm3,
    List.take_left' hm4]
  rw [read_le_le_bytes 4 _ (e32 ▸ h1), read_le_le_bytes 4 _ (e32 ▸ h2),
    read_le_le_bytes 4 _ (e32 ▸ h3), read_le_le_bytes 4 _ (e32 ▸ h4)]

theorem decode_encode_recovery (h : RecoveryUpdateHeader) (hwf : h.wf) :
    decode_recovery (encode_recovery h) = .ok h := by
  have := decode_recovery_append h hwf []
  simpa using this

theorem encode_recovery_h2_length (h : RecoveryH2UpdateHeader) (hfl : h.foo.length = 4)
    (hml : h.md5_sum.length = 32) :
    (encode_recovery_h2 h).length = RECOVERY_UPDATE_BLOCK_SIZE := by
  simp only [encode_recovery_h2, List.length_append, le_bytes_length,
    List.length_replicate, hfl, hml]
  unfold RECOVERY_UPDATE_BLOCK_SIZE
  omega

theorem decode_recovery_h2_append (h : RecoveryH2UpdateHeader) (hwf : h.wf)
    (tail : List Nat) :
    decode_recovery_h2 (encode_recovery_h2 h ++ tail) = .ok h := by
  obtain ⟨hfoo, htr, hmd, h1, h2, h3, h4, h5, h6⟩ := hwf
  have hfl : h.foo.length = 4 := hfoo.1
  have htl : (le_bytes 8 h.target_revision).length = 8 := le_bytes_length _ _
  have hml : h.md5_sum.length = MD5_HASH_LENGTH := hmd.1
  have hml' : h.md5_sum.length = 32 := hml
  have hm1 : (le_bytes 4 h.magic_1).length = 4 := le_bytes_length _ _
  have hm2 : (le_bytes 4 h.magic_2).length = 4 := le_bytes_length _ _
  have hm3 : (le_bytes 4 h.minor).length = 4 := le_bytes_length _ _
  have hm4 : (le_bytes 4 h.platform).length = 4 := le_bytes_length _ _
  have hm5 : (le_bytes 4 h.header_rev).length = 4 := le_bytes_length _ _
  have hm6 : (le_bytes 4 h.board).length = 4 := le_bytes_length _ _
  have hlen : ¬ (encode_recovery_h2 h ++ tail).length < RECOVERY_UPDATE_BLOCK_SIZE := by
    rw [List.length_append, encode_recovery_h2_length h hfl hml']
    omega
  have e32 : (256 : Nat) ^ 4 = 2 ^ 32 := by norm_num
  have e64 : (256 : Nat) ^ 8 = 2 ^ 64 := by norm_num
  unfold decode_recovery_h2
  rw [if_neg hlen]
  unfold encode_recovery_h2
  simp only [List.append_assoc]
  rw [List.take_left' hfl, List.drop_left' hfl,
    List.take_left' htl, List.drop_left' htl,
    List.take_left' hml, List.drop_left' hml',
    List.take_left' hm1, List.drop_left' hm1,
    List.take_left' hm2, List.drop_left' hm2,
    List.take_left' hm3, List.drop_left' hm3,
    List.take_left' hm4, List.drop_left' hm4,
    List.take_left' hm5, List.drop_left' hm5,
    List.take_left' hm6]
  rw [read_le_le_bytes 8 _ (e64 ▸ htr),
    read_le_le_bytes 4 _ (e32 ▸ h1), read_le_le_bytes 4 _ (e32 ▸ h2),
    read_le_le_bytes 4 _ (e32 ▸ h3), read_le_le_bytes 4 _ (e32 ▸ h4),
    read_le_le_bytes 4 _ (e32 ▸ h5), read_le_le_bytes 4 _ (e32 ▸ h6)]

theorem decode_encode_recovery_h2 (h : RecoveryH2UpdateHeader) (hwf : h.wf) :
    decode_recovery_h2 (encode_recovery_h2 h) = .ok h := by
  have := decode_recovery_h2_append h hwf []
  simpa using this

theorem encode_ota_v2_entry_length (e : OTAUpdateV2Entry) (hml : e.md5_sum.length = 32) :
    (encode_ota_v2_entry e).length = OTA_UPDATE_V2_PART_2_BLOCK_SIZE := by
  simp [encode_ota_v2_entry, le_bytes_length, hml, OTA_UPDATE_V2_PART_2_BLOCK_SIZE]

theorem decode_v2_entries_append (l : List OTAUpdateV2Entry) (hwf : ∀ e ∈ l, e.wf)
    (tail : List Nat) :
    decode_ota_v2_entries l.length (encode_ota_v2_entries l ++ tail) = .ok l := by
  induction l generalizing tail with
  | nil => rfl
  | cons e rest ih =>
    obtain ⟨hd, hc, hu, hm⟩ := hwf e (List.mem_cons_self e rest)
    have hml : e.md5_sum.length = MD5_HASH_LENGTH := hm.1
    have hml' : e.md5_sum.length = 32 := hml
    have hD : (le_bytes 2 e.device).length = 2 := le_bytes_length _ _
    have hC : ([e.critical] : List Nat).length = 1 := rfl
    have hU : ([e.unused] : List Nat).length = 1 := rfl
    have e16 : (256 : Nat) ^ 2 = 2 ^ 16 := by norm_num
    have hshape : encode_ota_v2_entries (e :: rest) ++ tail =
        le_bytes 2 e.device ++
          ([e.critical] ++ ([e.unused] ++
            (e.md5_sum ++ (encode_ota_v2_entries rest ++ tail)))) := by
      show encode_ota_v2_entry e ++ encode_ota_v2_entries rest ++ tail = _
      unfold encode_ota_v2_entry
      simp [List.append_assoc]
    have hlen : (encode_ota_v2_entries (e :: rest) ++ tail).length =
        36 + (encode_ota_v2_entries rest ++ tail).length := by
      rw [hshape]
      simp [le_bytes_length, hml']
      omega
    show decode_ota_v2_entries (rest.length + 1)
      (encode_ota_v2_entries (e :: rest) ++ tail) = _
    unfold decode_ota_v2_entries
    rw [if_neg (by rw [hlen]; unfold OTA_UPDATE_V2_PART_2_BLOCK_SIZE; omega)]
    rw [hshape]
    rw [List.take_left' hD, List.drop_left' hD,
      List.take_left' hC, List.drop_left' hC,
      List.take_left' hU, List.drop_left' hU,
      List.take_left' hml, List.drop_left' hml]
    rw [read_le_le_bytes 2 _ (e16 ▸ hd), read_le_singleton, read_le_singleton]
    rw [ih (fun e' he' => hwf e' (List.mem_cons_of_mem e he')) tail]
    rfl

theorem decode_encode_v2_entries (l : List OTAUpdateV2Entry) (hwf : ∀ e ∈ l, e.wf) :
    decode_ota_v2_entries l.length (encode_ota_v2_entries l) = .ok l := by
  have := decode_v2_entries_append l hwf []
  simpa using this

theorem encode_ota_v2_length (h : OTAUpdateV2Header)
    (hml : ∀ e ∈ h.entries, e.md5_sum.length = 32) :
    (encode_ota_v2 h).length =
      OTA_UPDATE_V2_BLOCK_SIZE + OTA_UPDATE_V2_PART_2_BLOCK_SIZE * h.entries.length := by
  have hent : ∀ l : List OTAUpdateV2Entry, (∀ e ∈ l, e.md5_sum.length = 32) →
      (encode_ota_v2_entries l).length = OTA_UPDATE_V2_PART_2_BLOCK_SIZE * l.length := by
    intro l hl
    induction l with
    | nil => simp [encode_ota_v2_entries, OTA_UPDATE_V2_PART_2_BLOCK_SIZE]
    | cons e rest ih =>
      have he : (encode_ota_v2_entry e).length = OTA_UPDATE_V2_PART_2_BLOCK_SIZE :=
        encode_ota_v2_entry_length e (hl e (List.mem_cons_self e rest))
      show (encode_ota_v2_entry e ++ encode_ota_v2_entries rest).length = _
      rw [List.length_append, he, ih (fun e' he' => hl e' (List.mem_cons_of_mem e he'))]
      simp [List.length_cons]
      ring
  simp only [encode_ota_v2, List.length_append, le_bytes_length, hent h.entries hml]
  unfold OTA_UPDATE_V2_BLOCK_SIZE
  omega

theorem decode_ota_v2_append (h : OTAUpdateV2Header) (hwf : h.wf) (tail : List Nat) :
    decode_ota_v2 (encode_ota_v2 h ++ tail) = .ok h := by
  obtain ⟨h1, h2, h3, h4⟩ := hwf
  have hA : (le_bytes 8 h.source_revision).length = 8 := le_bytes_length _ _
  have hB : (le_bytes 8 h.target_revision).length = 8 := le_bytes_length _ _
  have hN : (le_bytes 2 h.entries.length).length = 2 := le_bytes_length _ _
  have e64 : (256 : Nat) ^ 8 = 2 ^ 64 := by norm_num
  have e16 : (256 : Nat) ^ 2 = 2 ^ 16 := by norm_num
  have hlen : ¬ (encode_ota_v2 h ++ tail).length < OTA_UPDATE_V2_BLOCK_SIZE := by
    simp only [encode_ota_v2, List.length_append, le_bytes_length]
    unfold OTA_UPDATE_V2_BLOCK_SIZE
    omega
  unfold decode_ota_v2
  rw [if_neg hlen]
  unfold encode_ota_v2
  simp only [List.append_assoc]
  rw [List.take_left' hA, List.drop_left' hA,
    List.take_left' hB, List.drop_left' hB,
    List.take_left' hN, List.drop_left' hN]
  rw [read_le_le_bytes 8 _ (e64 ▸ h1), read_le_le_bytes 8 _ (e64 ▸ h2),
    read_le_le_bytes 2 _ (e16 ▸ h3)]
  rw [decode_v2_entries_append h.entries h4 tail]
  rfl

theorem decode_encode_ota_v2 (h : OTAUpdateV2Header) (hwf : h.wf) :
    decode_ota_v2 (encode_ota_v2 h) = .ok h := by
  have := decode_ota_v2_append h hwf []
  simpa using this

/-- Claim C5: for every header of each variant, decoding the encoding returns
the header exactly, and every buffer shorter than the variant's fixed block
size is rejected with InvalidHeader. -/
theorem header_codec_roundtrip :
    (∀ h : UpdateSignatureHeader, h.wf →
      decode_signature (encode_signature h) = .ok h) ∧
    (∀ h : OTAUpdateHeader, h.wf → decode_ota (encode_ota h) = .ok h) ∧
    (∀ h : OTAUpdateV2Header, h.wf → decode_ota_v2 (encode_ota_v2 h) = .ok h) ∧
    (∀ h : RecoveryUpdateHeader, h.wf → decode_recovery (encode_recovery h) = .ok h) ∧
    (∀ h : RecoveryH2UpdateHeader, h.wf →
      decode_recovery_h2 (encode_recovery_h2 h) = .ok h) ∧
    (∀ bs : List Nat, bs.length < UPDATE_SIGNATURE_BLOCK_SIZE →
      decode_signature bs = .error .InvalidHeader) ∧
    (∀ bs : List Nat, bs.length < OTA_UPDATE_BLOCK_SIZE →
      decode_ota bs = .error .InvalidHeader) ∧
    (∀ bs : List Nat, bs.length < OTA_UPDATE_V2_BLOCK_SIZE →
      decode_ota_v2 bs = .error .InvalidHeader) ∧
    (∀ bs : List Nat, bs.length < RECOVERY_UPDATE_BLOCK_SIZE →
      decode_recovery bs = .error .InvalidHeader) ∧
    (∀ bs : List Nat, bs.length < RECOVERY_UPDATE_BLOCK_SIZE →
      decode_recovery_h2 bs = .error .InvalidHeader) := by
  refine ⟨decode_encode_signature, decode_encode_ota, decode_encode_ota_v2,
    decode_encode_recovery, decode_encode_recovery_h2, ?_, ?_, ?_, ?_, ?_⟩
  · intro bs hbs
    unfold decode_signature
    rw [if_pos hbs]
  · intro bs hbs
    unfold decode_ota
    rw [if_pos hbs]
  · intro bs hbs
    unfold decode_ota_v2
    rw [if_pos hbs]
  · intro bs hbs
    unfold decode_recovery
    rw [if_pos hbs]
  · intro bs hbs
    unfold decode_recovery_h2
    rw [if_pos hbs]

/-- Witness for C5 at concrete headers of each variant and a concrete short
buffer. -/
theorem header_codec_roundtrip_witness :
    (UpdateSignatureHeader.mk 2).wf ∧
    decode_signature (encode_signature (UpdateSignatureHeader.mk 2)) =
      .ok (UpdateSignatureHeader.mk 2) ∧
    (OTAUpdateHeader.mk 1 2 0x24 0 0 (List.replicate 32 48)).wf ∧
    decode_ota (encode_ota (OTAUpdateHeader.mk 1 2 0x24 0 0 (List.replicate 32 48))) =
      .ok (OTAUpdateHeader.mk 1 2 0x24 0 0 (List.replicate 32 48)) ∧
    (OTAUpdateV2Header.mk 1 5
      [OTAUpdateV2Entry.mk 0x201 1 0 (List.replicate 32 48)]).wf ∧
    decode_ota_v2 (encode_ota_v2 (OTAUpdateV2Header.mk 1 5
        [OTAUpdateV2Entry.mk 0x201 1 0 (List.replicate 32 48)])) =
      .ok (OTAUpdateV2Header.mk 1 5
        [OTAUpdateV2Entry.mk 0x201 1 0 (List.replicate 32 48)]) ∧
    (RecoveryUpdateHeader.mk (List.replicate 12 0) (List.replicate 32 48) 1 2 0 4).wf ∧
    decode_recovery (encode_recovery
        (RecoveryUpdateHeader.mk (List.replicate 12 0) (List.replicate 32 48) 1 2 0 4)) =
      .ok (RecoveryUpdateHeader.mk (List.replicate 12 0) (List.replicate 32 48) 1 2 0 4) ∧
    (RecoveryH2UpdateHeader.mk (List.replicate 4 0) 5 (List.replicate 32 48)
      1 2 0 0xC 2 0).wf ∧
    decode_recovery_h2 (encode_recovery_h2 (RecoveryH2UpdateHeader.mk (List.replicate 4 0) 5
        (List.replicate 32 48) 1 2 0 0xC 2 0)) =
      .ok (RecoveryH2UpdateHeader.mk (List.replicate 4 0) 5 (List.replicate 32 48)
        1 2 0 0xC 2 0) ∧
    ([] : List Nat).length < OTA_UPDATE_BLOCK_SIZE ∧
    decode_ota [] = .error .InvalidHeader :=
  ⟨by decide,
    header_codec_roundtrip.1 _ (by decide),
    by decide,
    header_codec_roundtrip.2.1 _ (by decide),
    by decide,
    header_codec_roundtrip.2.2.1 _ (by decide),
    by decide,
    header_codec_roundtrip.2.2.2.1 _ (by decide),
    by decide,
    header_codec_roundtrip.2.2.2.2.1 _ (by decide),
    by decide,
    header_codec_roundtrip.2.2.2.2.2.2.1 [] (by decide)⟩

/-! ## Filename classification theorems -/

/-- Claim C9: for filenames at least as long as the tested suffix, the
classification macros match the suffix case-insensitively (a name ending in
any capitalization of the pattern matches), except IS_UIMAGE, which compares
the trailing 6 characters case-sensitively, so only the exact spelling uImage
matches. -/
theorem filename_classification :
    (∀ f : List Char, 4 ≤ f.length →
      (IS_SCRIPT f = true ↔ (f.drop (f.length - 4)).map ascii_lower = ".ffs".toList)) ∧
    (∀ f : List Char, 3 ≤ f.length →
      (IS_SHELL f = true ↔ (f.drop (f.length - 3)).map ascii_lower = ".sh".toList)) ∧
    (∀ f : List Char, 4 ≤ f.length →
      (IS_SIG f = true ↔ (f.drop (f.length - 4)).map ascii_lower = ".sig".toList)) ∧
    (∀ f : List Char, 4 ≤ f.length →
      (IS_BIN f = true ↔ (f.drop (f.length - 4)).map ascii_lower = ".bin".toList)) ∧
    (∀ f : List Char, 5 ≤ f.length →
      (IS_STGZ f = true ↔ (f.drop (f.length - 5)).map ascii_lower = ".stgz".toList)) ∧
    (∀ f : List Char, 4 ≤ f.length →
      (IS_TGZ f = true ↔ (f.drop (f.length - 4)).map ascii_lower = ".tgz".toList)) ∧
    (∀ f : List Char, 7 ≤ f.length →
      (IS_TARBALL f = true ↔ (f.drop (f.length - 7)).map ascii_lower = ".tar.gz".toList)) ∧
    (∀ f : List Char, 4 ≤ f.length →
      (IS_DAT f = true ↔ (f.drop (f.length - 4)).map ascii_lower = ".dat".toList)) ∧
    (∀ f : List Char, 6 ≤ f.length →
      (IS_UIMAGE f = true ↔ f.drop (f.length - 6) = "uImage".toList)) := by
  have hffs : ".ffs".toList.map ascii_lower = ".ffs".toList := by decide
  have hsh : ".sh".toList.map ascii_lower = ".sh".toList := by decide
  have hsig : ".sig".toList.map ascii_lower = ".sig".toList := by decide
  have hbin : ".bin".toList.map ascii_lower = ".bin".toList := by decide
  have hstgz : ".stgz".toList.map ascii_lower = ".stgz".toList := by decide
  have htgz : ".tgz".toList.map ascii_lower = ".tgz".toList := by decide
  have htar : ".tar.gz".toList.map ascii_lower = ".tar.gz".toList := by decide
  have hdat : ".dat".toList.map ascii_lower = ".dat".toList := by decide
  refine ⟨?_, ?_, ?_, ?_, ?_, ?_, ?_, ?_, ?_⟩ <;> intro f hf
  · unfold IS_SCRIPT strncasecmp_eq
    rw [hffs]
    exact beq_iff_eq
  · unfold IS_SHELL strncasecmp_eq
    rw [hsh]
    exact beq_iff_eq
  · unfold IS_SIG strncasecmp_eq
    rw [hsig]
    exact beq_iff_eq
  · unfold IS_BIN strncasecmp_eq
    rw [hbin]
    exact beq_iff_eq
  · unfold IS_STGZ strncasecmp_eq
    rw [hstgz]
    exact beq_iff_eq
  · unfold IS_TGZ strncasecmp_eq
    rw [htgz]
    exact beq_iff_eq
  · unfold IS_TARBALL strncasecmp_eq
    rw [htar]
    exact beq_iff_eq
  · unfold IS_DAT strncasecmp_eq
    rw [hdat]
    exact beq_iff_eq
  · unfold IS_UIMAGE
    exact beq_iff_eq

/-- Witness for C9 at concrete filenames: an uppercase .FFS name classifies
as script, the exact spelling uImage matches IS_UIMAGE, and an uppercase
UIMAGE spelling does not. -/
theorem filename_classification_witness :
    IS_SCRIPT "A.FFS".toList = true ∧
    IS_UIMAGE "-uImage".toList = true ∧
    IS_UIMAGE "-UIMAGE".toList = false :=
  ⟨(filename_classification.1 "A.FFS".toList (by decide)).mpr (by decide),
    (filename_classification.2.2.2.2.2.2.2.2 "-uImage".toList (by decide)).mpr (by decide),
    by decide⟩

/-! ## Serial-number device code theorems -/

/-- Claim C8: for every 16-character serial number, when the fifth character
is not a decimal digit the device code is the base-32 decoding of characters
3 through 6 (indices 3 to 5), and otherwise it is the hexadecimal reading of
characters 1 through 2 (indices 1 and 2). -/
theorem serial_device_code (serial : List Char)
    (hlen : serial.length = SERIAL_NO_LENGTH) :
    (¬ (serial.getD 4 '0').isDigit →
      encode_device_from_serial serial = from_base ((serial.drop 3).take 3) 32) ∧
    ((serial.getD 4 '0').isDigit →
      encode_device_from_serial serial = from_base ((serial.drop 1).take 2) 16) := by
  constructor <;> intro h
  · unfold encode_device_from_serial
    rw [if_pos h]
  · unfold encode_device_from_serial
    rw [if_neg (not_not_intro h)]

/-- Witness for C8: a serial carrying the base-32 code 0G1 at indices 3-5
decodes to device 0x201, and a legacy serial with hex 24 at indices 1-2
decodes to 0x24. -/
theorem serial_device_code_witness :
    ("XYZ0G1ABCDEFGHIJ".toList.length = SERIAL_NO_LENGTH) ∧
    encode_device_from_serial "XYZ0G1ABCDEFGHIJ".toList = 0x201 ∧
    encode_device_from_serial "B24A5XXXXXXXXXXX".toList = 0x24 :=
  ⟨by decide,
    by rw [(serial_device_code "XYZ0G1ABCDEFGHIJ".toList (by decide)).1 (by decide)]; decide,
    by rw [(serial_device_code "B24A5XXXXXXXXXXX".toList (by decide)).2 (by decide)]; decide⟩

/-! ## State independence of the lookup functions -/

/-- Claim C10: the lookup functions convert_device_id, convert_platform_id,
convert_board_id and get_bundle_version are deterministic functions of their
argument alone: for any two process states (in particular any two values of
the relaxed-device flag), equal arguments give identical results, per the
const and pure attributes on their declarations. -/
theorem lookup_state_independent :
    ∀ s t : ProcState, ∀ dev plat board : Nat, ∀ magic : String,
      convert_device_id s dev = convert_device_id t dev ∧
      convert_platform_id s plat = convert_platform_id t plat ∧
      convert_board_id s board = convert_board_id t board ∧
      get_bundle_version_in s magic = get_bundle_version_in t magic := by
  intro s t dev plat board magic
  exact ⟨rfl, rfl, rfl, rfl⟩

/-! ## Byte-bound and big-endian lemmas -/

theorem be_bytes_length (w v : Nat) : (be_bytes w v).length = w := by
  simp [be_bytes, le_bytes_length]

theorem be_bytes_lt (w v : Nat) : ∀ b ∈ be_bytes w v, b < 256 := by
  intro b hb
  exact le_bytes_lt w v b (List.mem_reverse.mp hb)

theorem read_be_be_bytes (w v : Nat) (h : v < 256 ^ w) : read_be (be_bytes w v) = v := by
  unfold read_be be_bytes
  rw [List.reverse_reverse]
  exact read_le_le_bytes w v h

theorem hex_lower_byte_lt (d : Nat) (h : d < 16) : hex_lower_byte d < 256 := by
  revert d
  decide

theorem hex_bytes_lower_length (w v : Nat) : (hex_bytes_lower w v).length = w := by
  induction w generalizing v with
  | zero => rfl
  | succ w ih => simp [hex_bytes_lower, ih]

theorem hex_bytes_lower_lt (w v : Nat) : ∀ b ∈ hex_bytes_lower w v, b < 256 := by
  induction w generalizing v with
  | zero => simp [hex_bytes_lower]
  | succ w ih =>
    simp only [hex_bytes_lower, List.mem_cons]
    rintro b (rfl | hb)
    · exact hex_lower_byte_lt _ (Nat.mod_lt _ (by norm_num))
    · exact ih _ b hb

theorem md5_hex_length (bs : List Nat) : (md5_hex bs).length = MD5_HASH_LENGTH :=
  hex_bytes_lower_length _ _

theorem md5_hex_lt (bs : List Nat) : ∀ b ∈ md5_hex bs, b < 256 :=
  hex_bytes_lower_lt _ _

/-! ## Archive byte bounds -/

theorem tar_entry_lt (f : KTFile) (hp : ∀ c ∈ f.path, c.toNat < 256)
    (hc : ∀ b ∈ f.contents, b < 256) : ∀ b ∈ tar_entry f, b < 256 := by
  intro b hb
  unfold tar_entry at hb
  simp only [List.mem_append, List.mem_map] at hb
  rcases hb with hb | ⟨c, hcp, rfl⟩ | hb | hb
  · exact le_bytes_lt _ _ b hb
  · exact hp c hcp
  · exact le_bytes_lt _ _ b hb
  · exact hc b hb

theorem tar_entries_lt (l : List KTFile)
    (h : ∀ f ∈ l, (∀ c ∈ f.path, c.toNat < 256) ∧ ∀ b ∈ f.contents, b < 256) :
    ∀ b ∈ tar_entries l, b < 256 := by
  induction l with
  | nil => simp [tar_entries]
  | cons f rest ih =>
    intro b hb
    rcases List.mem_append.mp hb with hb | hb
    · exact tar_entry_lt f (h f (by simp)).1 (h f (by simp)).2 b hb
    · exact ih (fun g hg => h g (List.mem_cons_of_mem f hg)) b hb

theorem targz_lt (l : List KTFile)
    (h : ∀ f ∈ l, (∀ c ∈ f.path, c.toNat < 256) ∧ ∀ b ∈ f.contents, b < 256) :
    ∀ b ∈ targz l, b < 256 := by
  intro b hb
  rcases List.mem_append.mp hb with hb | hb
  · exact le_bytes_lt _ _ b hb
  · exact tar_entries_lt l h b hb

theorem file_type_word_lt (f : KTFile) : ∀ c ∈ file_type_word f, c.toNat < 256 := by
  unfold file_type_word
  split_ifs <;> decide

theorem manifest_line_lt (f : KTFile) (hp : ∀ c ∈ f.path, c.toNat < 256) :
    ∀ b ∈ manifest_line f, b < 256 := by
  have hpad : ∀ x ∈ str_bytes " 0644 0 0 ", x < 256 := by decide
  intro b hb
  unfold manifest_line at hb
  rcases List.mem_append.mp hb with hb | hb
  · rcases List.mem_append.mp hb with hb | hb
    · rcases List.mem_append.mp hb with hb | hb
      · rcases List.mem_append.mp hb with hb | hb
        · obtain ⟨c, hcw, rfl⟩ := List.mem_map.mp hb
          exact file_type_word_lt f c hcw
        · exact hpad b hb
      · obtain ⟨c, hcp, rfl⟩ := List.mem_map.mp hb
        exact hp c hcp
    · rcases List.mem_cons.mp hb with rfl | hb
      · norm_num
      · exact md5_hex_lt _ b hb
  · have : b = 10 := List.mem_singleton.mp hb
    omega

theorem manifest_bytes_lt (t : List KTFile)
    (h : ∀ f ∈ t, ∀ c ∈ f.path, c.toNat < 256) :
    ∀ b ∈ manifest_bytes t, b < 256 := by
  induction t with
  | nil => simp [manifest_bytes]
  | cons f rest ih =>
    intro b hb
    rcases List.mem_append.mp hb with hb | hb
    · exact manifest_line_lt f (h f (by simp)) b hb
    · exact ih (fun g hg => h g (List.mem_cons_of_mem f hg)) b hb

theorem sig_file_ok (k : RSAKeyPair) (f : KTFile) (hp : ∀ c ∈ f.path, c.toNat < 256) :
    (∀ c ∈ (sig_file k f).path, c.toNat < 256) ∧
      ∀ b ∈ (sig_file k f).contents, b < 256 := by
  have hsig : ∀ c ∈ ".sig".toList, c.toNat < 256 := by decide
  constructor
  · intro c hc
    rcases List.mem_append.mp hc with hc | hc
    · exact hp c hc
    · exact hsig c hc
  · exact be_bytes_lt _ _

theorem signed_files_ok (k : RSAKeyPair) (t : List KTFile) (h : ∀ f ∈ t, f.wf) :
    ∀ f ∈ signed_files k t,
      (∀ c ∈ f.path, c.toNat < 256) ∧ ∀ b ∈ f.contents, b < 256 := by
  induction t with
  | nil => simp [signed_files]
  | cons g rest ih =>
    intro f hf
    simp only [signed_files, List.mem_cons] at hf
    rcases hf with rfl | rfl | hf
    · exact ⟨(h f (by simp)).2.1, (h f (by simp)).2.2.2⟩
    · exact sig_file_ok k g (h g (by simp)).2.1
    · exact ih (fun g' hg' => h g' (List.mem_cons_of_mem g hg')) f hf

theorem archive_files_ok (k : RSAKeyPair) (t : List KTFile) (h : ∀ f ∈ t, f.wf) :
    ∀ f ∈ archive_files k t,
      (∀ c ∈ f.path, c.toNat < 256) ∧ ∀ b ∈ f.contents, b < 256 := by
  have hman : ∀ f ∈ t, ∀ c ∈ f.path, c.toNat < 256 := fun f hf => (h f hf).2.1
  have hidx : ∀ c ∈ INDEX_FILE_NAME.toList, c.toNat < 256 := by decide
  intro f hf
  rcases List.mem_append.mp hf with hf | hf
  · exact signed_files_ok k t h f hf
  · have : f = manifest_file t := List.mem_singleton.mp hf
    subst this
    exact ⟨hidx, manifest_bytes_lt t hman⟩

/-! ## Archive length bounds -/

theorem file_type_word_length_le (f : KTFile) : (file_type_word f).length ≤ 6 := by
  unfold file_type_word
  split_ifs <;> decide

theorem manifest_line_length_le (f : KTFile) (hp : f.path.length < 2 ^ 16) :
    (manifest_line f).length ≤ 2 ^ 17 := by
  have h1 := file_type_word_length_le f
  have h2 : (str_bytes " 0644 0 0 ").length = 10 := by decide
  have h3 := md5_hex_length f.contents
  unfold MD5_HASH_LENGTH at h3
  unfold manifest_line
  simp only [List.length_append, List.length_map, List.length_cons,
    List.length_singleton, List.length_nil, h2, h3]
  omega

theorem manifest_bytes_length_le (t : List KTFile)
    (h : ∀ f ∈ t, f.path.length < 2 ^ 16) :
    (manifest_bytes t).length ≤ t.length * 2 ^ 17 := by
  induction t with
  | nil => simp [manifest_bytes]
  | cons f rest ih =>
    have hf := manifest_line_length_le f (h f (by simp))
    have hr := ih (fun g hg => h g (List.mem_cons_of_mem f hg))
    show (manifest_line f ++ manifest_bytes rest).length ≤ _
    rw [List.length_append, List.length_cons]
    calc (manifest_line f).length + (manifest_bytes rest).length ≤
        2 ^ 17 + rest.length * 2 ^ 17 := Nat.add_le_add hf hr
      _ = (rest.length + 1) * 2 ^ 17 := by ring

theorem signed_files_length (k : RSAKeyPair) (t : List KTFile) :
    (signed_files k t).length = 2 * t.length := by
  induction t with
  | nil => rfl
  | cons f rest ih =>
    show (f :: sig_file k f :: signed_files k rest).length = _
    simp only [List.length_cons, ih]
    ring

theorem archive_files_length (k : RSAKeyPair) (t : List KTFile) :
    (archive_files k t).length = 2 * t.length + 1 := by
  unfold archive_files
  rw [List.length_append, signed_files_length]
  rfl

theorem signed_files_tar_wf (k : RSAKeyPair) (t : List KTFile) (h : ∀ f ∈ t, f.wf)
    (hoct : modulus_octets k.n < 2 ^ 16) :
    ∀ f ∈ signed_files k t, f.path.length < 2 ^ 32 ∧ f.contents.length < 2 ^ 64 := by
  induction t with
  | nil => simp [signed_files]
  | cons g rest ih =>
    intro f hf
    simp only [signed_files, List.mem_cons] at hf
    rcases hf with rfl | rfl | hf
    · obtain ⟨hp, _, hc, _⟩ := h f (by simp)
      constructor <;> omega
    · obtain ⟨hp, _, _, _⟩ := h g (by simp)
      have h1 : (sig_file k g).path.length = g.path.length + 4 := by
        simp [sig_file]
      have h2 : (sig_file k g).contents.length = modulus_octets k.n := by
        simp [sig_file, raw_signature, be_bytes_length]
      constructor <;> omega
    · exact ih (fun g' hg' => h g' (List.mem_cons_of_mem g hg')) f hf

theorem archive_tar_wf (k : RSAKeyPair) (t : List KTFile) (h : ∀ f ∈ t, f.wf)
    (hoct : modulus_octets k.n < 2 ^ 16) (hlen : t.length < 2 ^ 30) :
    ∀ f ∈ archive_files k t, f.path.length < 2 ^ 32 ∧ f.contents.length < 2 ^ 64 := by
  intro f hf
  rcases List.mem_append.mp hf with hf | hf
  · exact signed_files_tar_wf k t h hoct f hf
  · have : f = manifest_file t := List.mem_singleton.mp hf
    subst this
    have h1 : (manifest_file t).path.length = 19 := by
      show INDEX_FILE_NAME.toList.length = 19
      decide
    have h2 : (manifest_bytes t).length ≤ t.length * 2 ^ 17 :=
      manifest_bytes_length_le t (fun f hf => (h f hf).1)
    have h3 : t.length * 2 ^ 17 < 2 ^ 30 * 2 ^ 17 :=
      (Nat.mul_lt_mul_right (by norm_num)).mpr hlen
    constructor
    · omega
    · show (manifest_bytes t).length < 2 ^ 64
      calc (manifest_bytes t).length ≤ t.length * 2 ^ 17 := h2
        _ < 2 ^ 30 * 2 ^ 17 := h3
        _ < 2 ^ 64 := by norm_num

/-! ## Archive decomposition roundtrip -/

theorem untar_tar (l : List KTFile)
    (h : ∀ f ∈ l, f.path.length < 2 ^ 32 ∧ f.contents.length < 2 ^ 64) :
    untar_entries l.length (tar_entries l) = .ok l := by
  induction l with
  | nil => rfl
  | cons f rest ih =>
    obtain ⟨hplen, hclen⟩ := h f (by simp)
    have hP : (f.path.map Char.toNat).length = f.path.length := List.length_map _ _
    have h4 : (le_bytes 4 f.path.length).length = 4 := le_bytes_length _ _
    have h8 : (le_bytes 8 f.contents.length).length = 8 := le_bytes_length _ _
    have e32 : (256 : Nat) ^ 4 = 2 ^ 32 := by norm_num
    have e64 : (256 : Nat) ^ 8 = 2 ^ 64 := by norm_num
    have hshape : tar_entries (f :: rest) =
        le_bytes 4 f.path.length ++
          (f.path.map Char.toNat ++
            (le_bytes 8 f.contents.length ++ (f.contents ++ tar_entries rest))) := by
      show tar_entry f ++ tar_entries rest = _
      unfold tar_entry
      simp [List.append_assoc]
    have hlen1 : ¬ (tar_entries (f :: rest)).length < 4 := by
      rw [hshape]
      simp only [List.length_append, h4]
      omega
    show untar_entries (rest.length + 1) (tar_entries (f :: rest)) = _
    unfold untar_entries
    rw [hshape]
    rw [List.take_left' h4, read_le_le_bytes 4 _ (e32 ▸ hplen), List.drop_left' h4,
      List.take_left' hP, List.drop_left' hP,
      List.take_left' h8, read_le_le_bytes 8 _ (e64 ▸ hclen), List.drop_left' h8,
      List.take_left, List.drop_left]
    rw [if_neg (by rw [← hshape]; exact hlen1)]
    rw [if_neg (by simp only [List.length_append]; omega)]
    rw [if_neg (by simp only [List.length_append, h8]; omega)]
    rw [if_neg (by simp only [List.length_append]; omega)]
    have hpath : (f.path.map Char.toNat).map Char.ofNat = f.path := by
      rw [List.map_map]
      have : f.path.map (Char.ofNat ∘ Char.toNat) = f.path.map id :=
        List.map_congr_left fun c _ => Char.ofNat_toNat c
      rw [this, List.map_id]
    rw [hpath, ih (fun g hg => h g (List.mem_cons_of_mem f hg))]
    rfl

theorem untargz_targz (l : List KTFile) (hcount : l.length < 2 ^ 32)
    (h : ∀ f ∈ l, f.path.length < 2 ^ 32 ∧ f.contents.length < 2 ^ 64) :
    untargz (targz l) = .ok l := by
  have h4 : (le_bytes 4 l.length).length = 4 := le_bytes_length _ _
  have e32 : (256 : Nat) ^ 4 = 2 ^ 32 := by norm_num
  unfold untargz targz
  rw [if_neg (by simp only [List.length_append, h4]; omega)]
  rw [List.take_left' h4, read_le_le_bytes 4 _ (e32 ▸ hcount), List.drop_left' h4]
  exact untar_tar l h

/-! ## Filtering the generated entries -/

theorem IS_SIG_append : ∀ p : List Char, IS_SIG (p ++ ".sig".toList) = true := by
  intro p
  unfold IS_SIG strncasecmp_eq
  have hlen : (p ++ ".sig".toList).length - 4 = p.length := by
    simp [List.length_append]
  rw [hlen, List.drop_left]
  decide

theorem is_generated_sig_file (k : RSAKeyPair) (f : KTFile) :
    is_generated_entry (sig_file k f) = true := by
  unfold is_generated_entry sig_file
  rw [IS_SIG_append f.path]
  simp

theorem is_generated_manifest (t : List KTFile) :
    is_generated_entry (manifest_file t) = true := by
  unfold is_generated_entry manifest_file
  simp

theorem filter_signed (k : RSAKeyPair) (t : List KTFile)
    (h : ∀ f ∈ t, is_generated_entry f = false) :
    (signed_files k t).filter (fun f => ! is_generated_entry f) = t := by
  induction t with
  | nil => rfl
  | cons f rest ih =>
    show ((f :: sig_file k f :: signed_files k rest).filter
      fun g => ! is_generated_entry g) = f :: rest
    rw [List.filter_cons_of_pos (by simp [h f (by simp)]),
      List.filter_cons_of_neg (by simp [is_generated_sig_file]),
      ih (fun g hg => h g (List.mem_cons_of_mem f hg))]

theorem filter_archive (k : RSAKeyPair) (t : List KTFile)
    (h : ∀ f ∈ t, is_generated_entry f = false) :
    (archive_files k t).filter (fun f => ! is_generated_entry f) = t := by
  unfold archive_files
  rw [List.filter_append]
  have hman : ([manifest_file t].filter fun f => ! is_generated_entry f) = [] := by
    simp [List.filter, is_generated_manifest]
  rw [hman, List.append_nil, filter_signed k t h]

/-! ## Catalog bounds -/

set_option maxRecDepth 8192 in
theorem known_device_lt : ∀ d ∈ known_device_codes, d < 2 ^ 16 := by decide

theorem known_platform_lt : ∀ p ∈ known_platform_codes, p < 2 ^ 32 := by decide

theorem known_board_lt : ∀ b ∈ known_board_codes, b < 2 ^ 32 := by decide

theorem cert_size_ne_zero_lt (c : Nat) (h : cert_size c ≠ 0) : c < 2 ^ 32 := by
  unfold cert_size at h
  split_ifs at h with h1 h2 h3
  · subst h1
    decide
  · subst h2
    decide
  · subst h3
    decide
  · exact absurd rfl h

/-! ## RSA core lemmas -/

theorem prime_pow_step (p s c m : Nat) (hp : p.Prime) :
    m ^ (c * ((p - 1) * s) + 1) ≡ m [MOD p] := by
  by_cases hdvd : p ∣ m
  · have h0 : m ≡ 0 [MOD p] := Nat.modEq_zero_iff_dvd.mpr hdvd
    have hE : m ^ (c * ((p - 1) * s) + 1) ≡ 0 [MOD p] :=
      Nat.modEq_zero_iff_dvd.mpr (dvd_pow hdvd (by omega))
    exact hE.trans h0.symm
  · have hco : p.Coprime m := (hp.coprime_iff_not_dvd).mpr hdvd
    have hf : m ^ (p - 1) ≡ 1 [MOD p] := by
      rw [← Nat.totient_prime hp]
      exact Nat.ModEq.pow_totient hco.symm
    have hshape : m ^ (c * ((p - 1) * s) + 1) = (m ^ (p - 1)) ^ (c * s) * m := by
      rw [← pow_mul, ← pow_succ]
      ring_nf
    rw [hshape]
    calc (m ^ (p - 1)) ^ (c * s) * m ≡ 1 ^ (c * s) * m [MOD p] :=
          (hf.pow (c * s)).mul_right m
      _ = m := by rw [one_pow, one_mul]

theorem rsa_core (k : RSAKeyPair) (hwf : k.wf) (m : Nat) :
    m ^ (k.e * k.d) ≡ m [MOD k.n] := by
  obtain ⟨hp, hq, hne, hed⟩ := hwf
  obtain ⟨c, hc⟩ : ∃ c, k.e * k.d = c * ((k.p - 1) * (k.q - 1)) + 1 := by
    refine ⟨k.e * k.d / ((k.p - 1) * (k.q - 1)), ?_⟩
    conv_lhs => rw [← Nat.div_add_mod (k.e * k.d) ((k.p - 1) * (k.q - 1))]
    rw [hed]
    ring
  have hpp : m ^ (k.e * k.d) ≡ m [MOD k.p] := by
    rw [hc]
    exact prime_pow_step k.p (k.q - 1) c m hp
  have hqq : m ^ (k.e * k.d) ≡ m [MOD k.q] := by
    rw [hc]
    have hswap : c * ((k.p - 1) * (k.q - 1)) + 1 = c * ((k.q - 1) * (k.p - 1)) + 1 := by
      ring
    rw [hswap]
    exact prime_pow_step k.q (k.p - 1) c m hq
  have hco : k.p.Coprime k.q := (Nat.coprime_primes hp hq).mpr hne
  exact (Nat.modEq_and_modEq_iff_modEq_mul hco).mp ⟨hpp, hqq⟩

theorem rsa_verify_sign (k : RSAKeyPair) (hwf : k.wf) (m : Nat) :
    rsa_verify k m (rsa_sign k m) = true := by
  unfold rsa_verify rsa_sign
  have h1 : (m ^ k.d % k.n) ^ k.e % k.n = (m ^ k.d) ^ k.e % k.n := (Nat.pow_mod _ _ _).symm
  have h2 : (m ^ k.d) ^ k.e = m ^ (k.e * k.d) := by
    rw [← pow_mul, Nat.mul_comm]
  have h3 : m ^ (k.e * k.d) % k.n = m % k.n := rsa_core k hwf m
  rw [h1, h2, h3]
  exact beq_self_eq_true _

/-! ## Monadic reduction helper -/

theorem ebind_ok {α β : Type} (a : α) (f : α → Except KTError β) :
    ((Except.ok a : Except KTError α) >>= f) = f a := rfl

/-! ## Convert-side lemmas -/

theorem lookup_known (s : ProcState) (dev : Nat) (h : dev ∈ known_device_codes) :
    lookup_device_name s dev = .ok (toString dev) := by
  unfold lookup_device_name convert_device_id
  rw [if_pos h]

theorem convert_ota_body_ok (s : ProcState) (h : OTAUpdateHeader) (payload : List Nat)
    (hwf : h.wf) (hdev : h.device ∈ known_device_codes)
    (hdig : h.md5_sum = md5_hex payload) :
    convert_ota_body s (encode_ota h ++ payload) = .ok (dm payload) := by
  have hml : h.md5_sum.length = MD5_HASH_LENGTH := hwf.2.2.2.2.2.1
  have hdrop : (encode_ota h ++ payload).drop OTA_UPDATE_BLOCK_SIZE = payload :=
    List.drop_left' (encode_ota_length h hml)
  simp only [convert_ota_body, decode_ota_append h hwf payload, ebind_ok,
    lookup_known s h.device hdev, hdrop]
  rw [if_pos hdig]

theorem check_devices_ok (s : ProcState) (l : List OTAUpdateV2Entry)
    (h : ∀ e ∈ l, e.device ∈ known_device_codes) :
    check_devices s l = .ok () := by
  induction l with
  | nil => rfl
  | cons e rest ih =>
    simp only [check_devices, lookup_known s e.device (h e (by simp)), ebind_ok]
    exact ih fun e' he' => h e' (List.mem_cons_of_mem e he')

theorem convert_ota_v2_body_ok (s : ProcState) (h : OTAUpdateV2Header)
    (payload : List Nat) (hwf : h.wf)
    (hdev : ∀ e ∈ h.entries, e.device ∈ known_device_codes)
    (hdig : ∀ e ∈ h.entries, e.md5_sum = md5_hex payload) :
    convert_ota_v2_body s (encode_ota_v2 h ++ payload) = .ok (dm payload) := by
  have hml : ∀ e ∈ h.entries, e.md5_sum.length = 32 :=
    fun e he => (hwf.2.2.2 e he).2.2.2.1
  have hdrop : (encode_ota_v2 h ++ payload).drop
      (OTA_UPDATE_V2_BLOCK_SIZE + OTA_UPDATE_V2_PART_2_BLOCK_SIZE * h.entries.length) =
      payload :=
    List.drop_left' (encode_ota_v2_length h hml)
  have hall : (h.entries.all fun e => e.md5_sum == md5_hex payload) = true := by
    rw [List.all_eq_true]
    intro e he
    exact beq_iff_eq.mpr (hdig e he)
  simp only [convert_ota_v2_body, decode_ota_v2_append h hwf payload, ebind_ok,
    check_devices_ok s h.entries hdev, hdrop]
  rw [if_pos hall]

theorem drop_append_len {α : Type} (l1 l2 : List α) (n k : Nat) (h : l1.length = n) :
    (l1 ++ l2).drop (n + k) = l2.drop k := by
  rw [← List.drop_drop, List.drop_left' h]

theorem recovery_rev_v1 (h : RecoveryUpdateHeader) (hul : h.unused.length = 12)
    (hml : h.md5_sum.length = 32) (tail : List Nat) :
    recovery_header_rev (encode_recovery h ++ tail) = 0 := by
  have hm1 : (le_bytes 4 h.magic_1).length = 4 := le_bytes_length _ _
  have hm2 : (le_bytes 4 h.magic_2).length = 4 := le_bytes_length _ _
  have hm3 : (le_bytes 4 h.minor).length = 4 := le_bytes_length _ _
  have hm4 : (le_bytes 4 h.device).length = 4 := le_bytes_length _ _
  unfold recovery_header_rev encode_recovery
  simp only [List.append_assoc]
  rw [List.drop_left' hul, List.drop_left' hml, List.drop_left' hm1,
    List.drop_left' hm2, List.drop_left' hm3, List.drop_left' hm4]
  rw [List.take_append_of_le_length
    (by rw [List.length_replicate]; unfold RECOVERY_UPDATE_BLOCK_SIZE; omega)]
  rw [List.take_replicate]
  have hmin : 4 ⊓ (RECOVERY_UPDATE_BLOCK_SIZE - 60) = 4 := by
    unfold RECOVERY_UPDATE_BLOCK_SIZE
    decide
  rw [hmin]
  decide

theorem recovery_rev_h2 (h : RecoveryH2UpdateHeader) (hfl : h.foo.length = 4)
    (hml : h.md5_sum.length = 32) (hrev32 : h.header_rev < 2 ^ 32) (tail : List Nat) :
    recovery_header_rev (encode_recovery_h2 h ++ tail) = h.header_rev := by
  have htl : (le_bytes 8 h.target_revision).length = 8 := le_bytes_length _ _
  have hm1 : (le_bytes 4 h.magic_1).length = 4 := le_bytes_length _ _
  have hm2 : (le_bytes 4 h.magic_2).length = 4 := le_bytes_length _ _
  have hm3 : (le_bytes 4 h.minor).length = 4 := le_bytes_length _ _
  have hm4 : (le_bytes 4 h.platform).length = 4 := le_bytes_length _ _
  have hm5 : (le_bytes 4 h.header_rev).length = 4 := le_bytes_length _ _
  have e32 : (256 : Nat) ^ 4 = 2 ^ 32 := by norm_num
  unfold recovery_header_rev encode_recovery_h2
  simp only [List.append_assoc]
  rw [show (12 : Nat) = 4 + 8 from rfl, drop_append_len h.foo _ 4 8 hfl,
    List.drop_left' htl, List.drop_left' hml, List.drop_left' hm1,
    List.drop_left' hm2, List.drop_left' hm3, List.drop_left' hm4,
    List.take_left' hm5]
  exact read_le_le_bytes 4 _ (e32 ▸ hrev32)

theorem convert_recovery_body_v1 (s : ProcState) (h : RecoveryUpdateHeader)
    (payload : List Nat) (hwf : h.wf) (hdev : h.device ∈ known_device_codes)
    (hdig : h.md5_sum = md5_hex payload) :
    convert_recovery_body s (encode_recovery h ++ payload) = .ok (dm payload) := by
  have hul : h.unused.length = 12 := hwf.1.1
  have hml : h.md5_sum.length = 32 := hwf.2.1.1
  have hrev := recovery_rev_v1 h hul hml payload
  have hdrop : (encode_recovery h ++ payload).drop RECOVERY_UPDATE_BLOCK_SIZE = payload :=
    List.drop_left' (encode_recovery_length h hul hml)
  unfold convert_recovery_body
  rw [hrev]
  rw [if_neg (by omega)]
  simp only [decode_recovery_append h hwf payload, ebind_ok,
    lookup_known s h.device hdev, hdrop]
  rw [if_pos hdig]

theorem convert_recovery_body_h2 (s : ProcState) (h : RecoveryH2UpdateHeader)
    (payload : List Nat) (hwf : h.wf) (hplat : h.platform ∈ known_platform_codes)
    (hboard : h.board ∈ known_board_codes) (hrev2 : 2 ≤ h.header_rev)
    (hdig : h.md5_sum = md5_hex payload) :
    convert_recovery_body s (encode_recovery_h2 h ++ payload) = .ok (dm payload) := by
  have hfl : h.foo.length = 4 := hwf.1.1
  have hml : h.md5_sum.length = 32 := hwf.2.2.1.1
  have hrev := recovery_rev_h2 h hfl hml hwf.2.2.2.2.2.2.2.1 payload
  have hdrop : (encode_recovery_h2 h ++ payload).drop RECOVERY_UPDATE_BLOCK_SIZE =
      payload :=
    List.drop_left' (encode_recovery_h2_length h hfl hml)
  have hp : convert_platform_id s h.platform = some (toString h.platform) := by
    unfold convert_platform_id
    rw [if_pos hplat]
  have hb : convert_board_id s h.board = some (toString h.board) := by
    unfold convert_board_id
    rw [if_pos hboard]
  unfold convert_recovery_body
  rw [hrev]
  rw [if_pos hrev2]
  simp only [decode_recovery_h2_append h hwf payload, ebind_ok, hp, hb, hdrop]
  rw [if_pos hdig]

theorem kindle_convert_eq_body (s : ProcState) (k : RSAKeyPair) (bs : List Nat)
    (V : BundleVersion)
    (hV : get_bundle_version (ascii_str (bs.take MAGIC_NUMBER_LENGTH)) = V)
    (h1 : V ≠ .UnknownUpdate) (h2 : V ≠ .UpdateSignature) :
    kindle_convert s k bs = convert_body s V (bs.drop MAGIC_NUMBER_LENGTH) := by
  unfold kindle_convert
  rw [hV]
  cases V <;> first | rfl | exact absurd rfl h1 | exact absurd rfl h2

theorem kindle_convert_envelope (s : ProcState) (k : RSAKeyPair) (rest : List Nat) :
    kindle_convert s k (str_bytes "SP01" ++ rest) = convert_envelope_body s k rest := by
  have h4 : (str_bytes "SP01").length = MAGIC_NUMBER_LENGTH := by decide
  unfold kindle_convert
  rw [List.take_left' h4]
  rw [show ascii_str (str_bytes "SP01") = "SP01" from by decide]
  rw [show get_bundle_version "SP01" = BundleVersion.UpdateSignature from by decide]
  rw [List.drop_left' h4]

theorem convert_envelope_body_ok (s : ProcState) (k : RSAKeyPair) (hk : k.wf)
    (c : Nat) (hc0 : cert_size c ≠ 0) (hoct : modulus_octets k.n = cert_size c)
    (body : List Nat) :
    convert_envelope_body s k
      (encode_signature (UpdateSignatureHeader.mk c) ++
        (be_bytes (cert_size c) (rsa_sign k (sha256_model body % k.n)) ++ body)) =
    convert_body s (get_bundle_version (ascii_str (body.take MAGIC_NUMBER_LENGTH)))
      (body.drop MAGIC_NUMBER_LENGTH) := by
  have hc32 : c < 2 ^ 32 := cert_size_ne_zero_lt c hc0
  have hwfc : (UpdateSignatureHeader.mk c).wf := hc32
  have hsig : (encode_signature (UpdateSignatureHeader.mk c)).length =
      UPDATE_SIGNATURE_BLOCK_SIZE := encode_signature_length _
  have hbe : (be_bytes (cert_size c) (rsa_sign k (sha256_model body % k.n))).length =
      cert_size c := be_bytes_length _ _
  have hnpos : 0 < k.n := Nat.mul_pos hk.1.pos hk.2.1.pos
  have hvlt : rsa_sign k (sha256_model body % k.n) < 256 ^ cert_size c := by
    have h1 : rsa_sign k (sha256_model body % k.n) < k.n := by
      unfold rsa_sign
      exact Nat.mod_lt _ hnpos
    have h2 : k.n < 256 ^ modulus_octets k.n := by
      unfold modulus_octets
      exact Nat.lt_pow_succ_log_self (by norm_num) k.n
    rw [hoct] at h2
    omega
  simp only [convert_envelope_body,
    decode_signature_append (UpdateSignatureHeader.mk c) hwfc _, ebind_ok]
  rw [if_neg hc0]
  rw [List.drop_left' hsig]
  rw [List.take_left' hbe, List.drop_left' hbe]
  rw [read_be_be_bytes _ _ hvlt]
  rw [rsa_verify_sign k hk (sha256_model body % k.n)]
  rw [if_pos rfl]

/-- Claim C6: for every valid RSA keypair and every digest representative,
verifying with the public exponent the signature produced with the private
exponent succeeds; and the raw signature octet string has the modulus size:
128 bytes (CERTIFICATE_1K_SIZE) for a 1024-bit modulus and 256 bytes
(CERTIFICATE_2K_SIZE) for a 2048-bit modulus. -/
theorem rsa_sign_verify :
    (∀ k : RSAKeyPair, k.wf → ∀ m : Nat, rsa_verify k m (rsa_sign k m) = true) ∧
    (∀ k : RSAKeyPair, ∀ m : Nat, (raw_signature k m).length = modulus_octets k.n) ∧
    (∀ n : Nat, 2 ^ 1023 ≤ n → n < 2 ^ 1024 → modulus_octets n = CERTIFICATE_1K_SIZE) ∧
    (∀ n : Nat, 2 ^ 2047 ≤ n → n < 2 ^ 2048 → modulus_octets n = CERTIFICATE_2K_SIZE) := by
  refine ⟨rsa_verify_sign, ?_, ?_, ?_⟩
  · intro k m
    unfold raw_signature be_bytes
    simp [le_bytes_length]
  · intro n h1 h2
    unfold modulus_octets CERTIFICATE_1K_SIZE
    have ha : (256 : Nat) ^ 127 ≤ n := le_trans (by norm_num) h1
    have hb : n < 256 ^ (127 + 1) := lt_of_lt_of_le h2 (by norm_num)
    rw [Nat.log_eq_of_pow_le_of_lt_pow ha hb]
  · intro n h1 h2
    unfold modulus_octets CERTIFICATE_2K_SIZE
    have ha : (256 : Nat) ^ 255 ≤ n := le_trans (by norm_num) h1
    have hb : n < 256 ^ (255 + 1) := lt_of_lt_of_le h2 (by norm_num)
    rw [Nat.log_eq_of_pow_le_of_lt_pow ha hb]

/-- Witness for C6: the keypair p = 61, q = 53, e = 17, d = 2753 is valid and
sign-then-verify succeeds on the digest representative 2024; the modulus
2^1023 (the smallest 1024-bit value) occupies exactly 128 octets. -/
theorem rsa_sign_verify_witness :
    (RSAKeyPair.mk 61 53 17 2753).wf ∧
    rsa_verify (RSAKeyPair.mk 61 53 17 2753) 2024
      (rsa_sign (RSAKeyPair.mk 61 53 17 2753) 2024) = true ∧
    (2 : Nat) ^ 1023 ≤ 2 ^ 1023 ∧ (2 : Nat) ^ 1023 < 2 ^ 1024 ∧
    modulus_octets (2 ^ 1023) = CERTIFICATE_1K_SIZE :=
  ⟨by decide, rsa_sign_verify.1 _ (by decide) 2024, le_refl _,
    Nat.pow_lt_pow_right (by decide) (by decide),
    rsa_sign_verify.2.2.1 (2 ^ 1023) (le_refl _)
      (Nat.pow_lt_pow_right (by decide) (by decide))⟩

/-! ## Create/convert roundtrip -/

theorem kindle_create_eval (o : CreateOptions) (t : List KTFile) (M : String)
    (hdrB : List Nat)
    (hs0 : ¬ (t.filter is_install_script).length = 0)
    (hs2 : ¬ 2 ≤ (t.filter is_install_script).length)
    (hmag : magic_for o.kind = some M)
    (hbh : build_header o (md5_hex (md (targz (archive_files o.keypair t)))) =
      .ok hdrB) :
    kindle_create o t =
      if o.sign_envelope then
        .ok (str_bytes "SP01" ++
          (encode_signature (UpdateSignatureHeader.mk o.cert_number) ++
            (be_bytes (cert_size o.cert_number)
                (rsa_sign o.keypair (sha256_model
                  (str_bytes M ++ (hdrB ++ md (targz (archive_files o.keypair t))))
                  % o.keypair.n)) ++
              (str_bytes M ++ (hdrB ++ md (targz (archive_files o.keypair t)))))))
      else .ok (str_bytes M ++ (hdrB ++ md (targz (archive_files o.keypair t)))) := by
  unfold kindle_create
  rw [if_neg hs0, if_neg hs2, hmag]
  simp only [hbh, ebind_ok]

/-- Claim C1: for every valid input tree and creation options, converting
the bundle produced by create returns the original tree; the entries the
archive pipeline generates (per-file signatures and the manifest) are the
tar normalization stripped on decomposition. -/
theorem create_convert_roundtrip (s : ProcState) (o : CreateOptions) (t : List KTFile)
    (ho : opts_wf o) (ht : tree_wf t) :
    ∃ b, kindle_create o t = .ok b ∧
      kindle_convert_tree s o.keypair b = .ok t := by
  obtain ⟨hkind, hsrc, htgt, hdne, hdlen, hdmem, hopt, hcrit, hm1, hm2, hmin,
    hplat, hboard, hkwf, hoct, henv⟩ := ho
  obtain ⟨hfwf, hgen, hscript, htlen⟩ := ht
  have hinner_lt : ∀ b ∈ targz (archive_files o.keypair t), b < 256 :=
    targz_lt _ (archive_files_ok _ _ hfwf)
  have hdm : dm (md (targz (archive_files o.keypair t))) =
      targz (archive_files o.keypair t) := dm_md _ hinner_lt
  have hcount : (archive_files o.keypair t).length < 2 ^ 32 := by
    rw [archive_files_length]
    omega
  have huntar : untargz (targz (archive_files o.keypair t)) =
      .ok (archive_files o.keypair t) :=
    untargz_targz _ hcount (archive_tar_wf _ _ hfwf hoct htlen)
  have hfilter :
      (archive_files o.keypair t).filter (fun f => ! is_generated_entry f) = t :=
    filter_archive _ _ hgen
  have hs0 : ¬ (t.filter is_install_script).length = 0 := by omega
  have hs2 : ¬ 2 ≤ (t.filter is_install_script).length := by omega
  have hassemble : ∀ b : List Nat,
      kindle_convert s o.keypair b = .ok (targz (archive_files o.keypair t)) →
      kindle_convert_tree s o.keypair b = .ok t := by
    intro b hb
    simp only [kindle_convert_tree, hb, ebind_ok, huntar, hfilter]
  have hdev0 : o.devices.headD 0 ∈ known_device_codes := by
    cases hd : o.devices with
    | nil => exact absurd hd hdne
    | cons d r =>
      exact hdmem d (by rw [hd]; exact List.mem_cons_self d r)
  have hdev16 : o.devices.headD 0 < 2 ^ 16 := known_device_lt _ hdev0
  have hplat32 : o.platform < 2 ^ 32 := known_platform_lt _ hplat
  have hboard32 : o.board < 2 ^ 32 := known_board_lt _ hboard
  rcases hkind with hk | hk | hk | hk
  · have hM4 : (str_bytes "FC02").length = MAGIC_NUMBER_LENGTH := by decide
    have hdrwf : (OTAUpdateHeader.mk o.source_revision o.target_revision
        (o.devices.headD 0) o.optional 0 (md5_hex (md (targz (archive_files o.keypair t))))).wf :=
      ⟨hsrc, htgt, hdev16, hopt, (by norm_num : (0 : Nat) < 256),
        md5_hex_length _, md5_hex_lt _⟩
    have hbody : convert_body s .OTAUpdate
        (encode_ota (OTAUpdateHeader.mk o.source_revision o.target_revision
        (o.devices.headD 0) o.optional 0 (md5_hex (md (targz (archive_files o.keypair t))))) ++ md (targz (archive_files o.keypair t))) =
        .ok (targz (archive_files o.keypair t)) := by
      show convert_ota_body s _ = _
      rw [convert_ota_body_ok s _ _ hdrwf hdev0 rfl, hdm]
    have hV : get_bundle_version (ascii_str
        ((str_bytes "FC02" ++ (encode_ota (OTAUpdateHeader.mk o.source_revision o.target_revision
        (o.devices.headD 0) o.optional 0 (md5_hex (md (targz (archive_files o.keypair t))))) ++ md (targz (archive_files o.keypair t)))).take MAGIC_NUMBER_LENGTH)) =
        .OTAUpdate := by
      rw [List.take_left' hM4]
      decide
    have hmag : magic_for o.kind = some "FC02" := by rw [hk]; decide
    have hbh : build_header o (md5_hex (md (targz (archive_files o.keypair t)))) = .ok (encode_ota (OTAUpdateHeader.mk o.source_revision o.target_revision
        (o.devices.headD 0) o.optional 0 (md5_hex (md (targz (archive_files o.keypair t)))))) := by
      simp only [build_header, hk]
    have hcreate := kindle_create_eval o t "FC02" (encode_ota (OTAUpdateHeader.mk o.source_revision o.target_revision
        (o.devices.headD 0) o.optional 0 (md5_hex (md (targz (archive_files o.keypair t)))))) hs0 hs2 hmag hbh
    cases henvb : o.sign_envelope
    · rw [henvb, if_neg (by simp)] at hcreate
      refine ⟨_, hcreate, ?_⟩
      apply hassemble
      rw [kindle_convert_eq_body s o.keypair _ .OTAUpdate hV (by decide) (by decide),
        List.drop_left' hM4]
      exact hbody
    · rw [henvb, if_pos rfl] at hcreate
      refine ⟨_, hcreate, ?_⟩
      apply hassemble
      rw [kindle_convert_envelope s o.keypair _]
      rw [convert_envelope_body_ok s o.keypair hkwf o.cert_number
        (henv henvb).2 (henv henvb).1 _]
      rw [hV, List.drop_left' hM4]
      exact hbody
  · have hM4 : (str_bytes "FC04").length = MAGIC_NUMBER_LENGTH := by decide
    have hdrwf : (OTAUpdateV2Header.mk o.source_revision o.target_revision
        (o.devices.map fun d => OTAUpdateV2Entry.mk d o.critical 0
          (md5_hex (md (targz (archive_files o.keypair t)))))).wf :=
      by
        refine ⟨(by omega : o.source_revision < 2 ^ 64),
          (by omega : o.target_revision < 2 ^ 64),
          (by simpa using hdlen :
            (o.devices.map fun d => OTAUpdateV2Entry.mk d o.critical 0
              (md5_hex (md (targz (archive_files o.keypair t))))).length < 2 ^ 16), ?_⟩
        intro e he
        obtain ⟨d, hd, rfl⟩ := List.mem_map.mp he
        exact ⟨known_device_lt d (hdmem d hd), hcrit, (by norm_num : (0 : Nat) < 256),
          md5_hex_length _, md5_hex_lt _⟩
    have hbody : convert_body s .OTAUpdateV2
        (encode_ota_v2 (OTAUpdateV2Header.mk o.source_revision o.target_revision
        (o.devices.map fun d => OTAUpdateV2Entry.mk d o.critical 0
          (md5_hex (md (targz (archive_files o.keypair t)))))) ++ md (targz (archive_files o.keypair t))) =
        .ok (targz (archive_files o.keypair t)) := by
      show convert_ota_v2_body s _ = _
      rw [convert_ota_v2_body_ok s _ _ hdrwf
        (by
          intro e he
          obtain ⟨d, hd, rfl⟩ := List.mem_map.mp he
          exact hdmem d hd)
        (by
          intro e he
          obtain ⟨d, hd, rfl⟩ := List.mem_map.mp he
          rfl), hdm]
    have hV : get_bundle_version (ascii_str
        ((str_bytes "FC04" ++ (encode_ota_v2 (OTAUpdateV2Header.mk o.source_revision o.target_revision
        (o.devices.map fun d => OTAUpdateV2Entry.mk d o.critical 0
          (md5_hex (md (targz (archive_files o.keypair t)))))) ++ md (targz (archive_files o.keypair t)))).take MAGIC_NUMBER_LENGTH)) =
        .OTAUpdateV2 := by
      rw [List.take_left' hM4]
      decide
    have hmag : magic_for o.kind = some "FC04" := by rw [hk]; decide
    have hbh : build_header o (md5_hex (md (targz (archive_files o.keypair t)))) = .ok (encode_ota_v2 (OTAUpdateV2Header.mk o.source_revision o.target_revision
        (o.devices.map fun d => OTAUpdateV2Entry.mk d o.critical 0
          (md5_hex (md (targz (archive_files o.keypair t))))))) := by
      simp only [build_header, hk]
    have hcreate := kindle_create_eval o t "FC04" (encode_ota_v2 (OTAUpdateV2Header.mk o.source_revision o.target_revision
        (o.devices.map fun d => OTAUpdateV2Entry.mk d o.critical 0
          (md5_hex (md (targz (archive_files o.keypair t))))))) hs0 hs2 hmag hbh
    cases henvb : o.sign_envelope
    · rw [henvb, if_neg (by simp)] at hcreate
      refine ⟨_, hcreate, ?_⟩
      apply hassemble
      rw [kindle_convert_eq_body s o.keypair _ .OTAUpdateV2 hV (by decide) (by decide),
        List.drop_left' hM4]
      exact hbody
    · rw [henvb, if_pos rfl] at hcreate
      refine ⟨_, hcreate, ?_⟩
      apply hassemble
      rw [kindle_convert_envelope s o.keypair _]
      rw [convert_envelope_body_ok s o.keypair hkwf o.cert_number
        (henv henvb).2 (henv henvb).1 _]
      rw [hV, List.drop_left' hM4]
      exact hbody
  · have hM4 : (str_bytes "FB01").length = MAGIC_NUMBER_LENGTH := by decide
    have hdrwf : (RecoveryUpdateHeader.mk (List.replicate 12 0)
        (md5_hex (md (targz (archive_files o.keypair t)))) o.magic_1 o.magic_2 o.minor (o.devices.headD 0)).wf :=
      ⟨⟨(by decide : (List.replicate 12 0).length = 12),
          (by decide : ∀ b ∈ List.replicate 12 (0 : Nat), b < 256)⟩,
        ⟨md5_hex_length _, md5_hex_lt _⟩, hm1, hm2, hmin,
        (by omega : o.devices.headD 0 < 2 ^ 32)⟩
    have hbody : convert_body s .RecoveryUpdate
        (encode_recovery (RecoveryUpdateHeader.mk (List.replicate 12 0)
        (md5_hex (md (targz (archive_files o.keypair t)))) o.magic_1 o.magic_2 o.minor (o.devices.headD 0)) ++ md (targz (archive_files o.keypair t))) =
        .ok (targz (archive_files o.keypair t)) := by
      show convert_recovery_body s _ = _
      rw [convert_recovery_body_v1 s _ _ hdrwf hdev0 rfl, hdm]
    have hV : get_bundle_version (ascii_str
        ((str_bytes "FB01" ++ (encode_recovery (RecoveryUpdateHeader.mk (List.replicate 12 0)
        (md5_hex (md (targz (archive_files o.keypair t)))) o.magic_1 o.magic_2 o.minor (o.devices.headD 0)) ++ md (targz (archive_files o.keypair t)))).take MAGIC_NUMBER_LENGTH)) =
        .RecoveryUpdate := by
      rw [List.take_left' hM4]
      decide
    have hmag : magic_for o.kind = some "FB01" := by rw [hk]; decide
    have hbh : build_header o (md5_hex (md (targz (archive_files o.keypair t)))) = .ok (encode_recovery (RecoveryUpdateHeader.mk (List.replicate 12 0)
        (md5_hex (md (targz (archive_files o.keypair t)))) o.magic_1 o.magic_2 o.minor (o.devices.headD 0))) := by
      simp only [build_header, hk]
    have hcreate := kindle_create_eval o t "FB01" (encode_recovery (RecoveryUpdateHeader.mk (List.replicate 12 0)
        (md5_hex (md (targz (archive_files o.keypair t)))) o.magic_1 o.magic_2 o.minor (o.devices.headD 0))) hs0 hs2 hmag hbh
    cases henvb : o.sign_envelope
    · rw [henvb, if_neg (by simp)] at hcreate
      refine ⟨_, hcreate, ?_⟩
      apply hassemble
      rw [kindle_convert_eq_body s o.keypair _ .RecoveryUpdate hV (by decide) (by decide),
        List.drop_left' hM4]
      exact hbody
    · rw [henvb, if_pos rfl] at hcreate
      refine ⟨_, hcreate, ?_⟩
      apply hassemble
      rw [kindle_convert_envelope s o.keypair _]
      rw [convert_envelope_body_ok s o.keypair hkwf o.cert_number
        (henv henvb).2 (henv henvb).1 _]
      rw [hV, List.drop_left' hM4]
      exact hbody
  · have hM4 : (str_bytes "FB02").length = MAGIC_NUMBER_LENGTH := by decide
    have hdrwf : (RecoveryH2UpdateHeader.mk (List.replicate 4 0) o.target_revision
        (md5_hex (md (targz (archive_files o.keypair t)))) o.magic_1 o.magic_2 o.minor o.platform 2 o.board).wf :=
      ⟨⟨(by decide : (List.replicate 4 0).length = 4),
          (by decide : ∀ b ∈ List.replicate 4 (0 : Nat), b < 256)⟩,
        (by omega : o.target_revision < 2 ^ 64), ⟨md5_hex_length _, md5_hex_lt _⟩,
        hm1, hm2, hmin, hplat32, (by norm_num : (2 : Nat) < 2 ^ 32), hboard32⟩
    have hbody : convert_body s .RecoveryUpdate
        (encode_recovery_h2 (RecoveryH2UpdateHeader.mk (List.replicate 4 0) o.target_revision
        (md5_hex (md (targz (archive_files o.keypair t)))) o.magic_1 o.magic_2 o.minor o.platform 2 o.board) ++ md (targz (archive_files o.keypair t))) =
        .ok (targz (archive_files o.keypair t)) := by
      show convert_recovery_body s _ = _
      rw [convert_recovery_body_h2 s _ _ hdrwf hplat hboard (by norm_num) rfl, hdm]
    have hV : get_bundle_version (ascii_str
        ((str_bytes "FB02" ++ (encode_recovery_h2 (RecoveryH2UpdateHeader.mk (List.replicate 4 0) o.target_revision
        (md5_hex (md (targz (archive_files o.keypair t)))) o.magic_1 o.magic_2 o.minor o.platform 2 o.board) ++ md (targz (archive_files o.keypair t)))).take MAGIC_NUMBER_LENGTH)) =
        .RecoveryUpdate := by
      rw [List.take_left' hM4]
      decide
    have hmag : magic_for o.kind = some "FB02" := by rw [hk]; decide
    have hbh : build_header o (md5_hex (md (targz (archive_files o.keypair t)))) = .ok (encode_recovery_h2 (RecoveryH2UpdateHeader.mk (List.replicate 4 0) o.target_revision
        (md5_hex (md (targz (archive_files o.keypair t)))) o.magic_1 o.magic_2 o.minor o.platform 2 o.board)) := by
      simp only [build_header, hk]
    have hcreate := kindle_create_eval o t "FB02" (encode_recovery_h2 (RecoveryH2UpdateHeader.mk (List.replicate 4 0) o.target_revision
        (md5_hex (md (targz (archive_files o.keypair t)))) o.magic_1 o.magic_2 o.minor o.platform 2 o.board)) hs0 hs2 hmag hbh
    cases henvb : o.sign_envelope
    · rw [henvb, if_neg (by simp)] at hcreate
      refine ⟨_, hcreate, ?_⟩
      apply hassemble
      rw [kindle_convert_eq_body s o.keypair _ .RecoveryUpdate hV (by decide) (by decide),
        List.drop_left' hM4]
      exact hbody
    · rw [henvb, if_pos rfl] at hcreate
      refine ⟨_, hcreate, ?_⟩
      apply hassemble
      rw [kindle_convert_envelope s o.keypair _]
      rw [convert_envelope_body_ok s o.keypair hkwf o.cert_number
        (henv henvb).2 (henv henvb).1 _]
      rw [hV, List.drop_left' hM4]
      exact hbody

set_option maxRecDepth 8192 in
/-- Witness for C1: a concrete OTA create/convert roundtrip for a tree with a
single install.sh script and one payload file, device 0x24, under the keypair
61/53/17/2753 without a signature envelope. -/
theorem create_convert_roundtrip_witness :
    opts_wf (CreateOptions.mk .OTAUpdate 1 2 [0x24] 0 0 0 0 0 0 0
      (RSAKeyPair.mk 61 53 17 2753) 0 false) ∧
    tree_wf [KTFile.mk "install.sh".toList [1, 2, 3]] ∧
    ∃ b, kindle_create (CreateOptions.mk .OTAUpdate 1 2 [0x24] 0 0 0 0 0 0 0
        (RSAKeyPair.mk 61 53 17 2753) 0 false)
        [KTFile.mk "install.sh".toList [1, 2, 3]] = .ok b ∧
      kindle_convert_tree (ProcState.mk 0 none "tmp") (RSAKeyPair.mk 61 53 17 2753) b =
        .ok [KTFile.mk "install.sh".toList [1, 2, 3]] := by
  have h15 : modulus_octets (RSAKeyPair.mk 61 53 17 2753).n < 2 ^ 16 := by
    unfold modulus_octets
    rw [show Nat.log 256 (RSAKeyPair.mk 61 53 17 2753).n = 1 from
      Nat.log_eq_of_pow_le_of_lt_pow (by norm_num [RSAKeyPair.n])
        (by norm_num [RSAKeyPair.n])]
    norm_num
  have ho : opts_wf (CreateOptions.mk .OTAUpdate 1 2 [0x24] 0 0 0 0 0 0 0
      (RSAKeyPair.mk 61 53 17 2753) 0 false) :=
    ⟨by decide, by decide, by decide, by decide, by decide, by decide, by decide,
      by decide, by decide, by decide, by decide, by decide, by decide, by decide,
      h15, by decide⟩
  have ht : tree_wf [KTFile.mk "install.sh".toList [1, 2, 3]] := by decide
  exact ⟨ho, ht, create_convert_roundtrip (ProcState.mk 0 none "tmp") _ _ ho ht⟩

/-! ## Unknown device handling -/

theorem ebind_err {α β : Type} (e : KTError) (f : α → Except KTError β) :
    ((Except.error e : Except KTError α) >>= f) = .error e := rfl

theorem lookup_unknown_relaxed (s : ProcState) (dev : Nat)
    (hmem : dev ∉ known_device_codes) (hflag : s.kt_with_unknown_devcodes ≠ 0) :
    lookup_device_name s dev = .ok (String.mk ('0' :: 'x' :: hex4 dev)) := by
  unfold lookup_device_name convert_device_id
  rw [if_neg hmem]
  rw [if_pos hflag]

theorem lookup_unknown_strict (s : ProcState) (dev : Nat)
    (hmem : dev ∉ known_device_codes) (hflag : s.kt_with_unknown_devcodes = 0) :
    lookup_device_name s dev = .error .UnknownDevice := by
  unfold lookup_device_name convert_device_id
  rw [if_neg hmem]
  rw [if_neg (by simp [hflag])]

/-- Claim C7: a bundle whose OTA header names a device code outside the
catalog converts successfully when the relaxed flag cached from
KT_WITH_UNKNOWN_DEVCODES is set (the catalog substituting the 0xNNNN string),
and fails with UnknownDevice when the flag is unset; all other errors of the
header and device stages surface through the conversion unchanged. -/
theorem unknown_device_handling :
    (∀ s : ProcState, ∀ dev : Nat, dev ∉ known_device_codes →
      s.kt_with_unknown_devcodes ≠ 0 →
      lookup_device_name s dev = .ok (String.mk ('0' :: 'x' :: hex4 dev))) ∧
    (∀ s : ProcState, ∀ dev : Nat, dev ∉ known_device_codes →
      s.kt_with_unknown_devcodes = 0 →
      lookup_device_name s dev = .error .UnknownDevice) ∧
    (∀ s : ProcState, ∀ k : RSAKeyPair, ∀ h : OTAUpdateHeader, ∀ payload : List Nat,
      h.wf → h.device ∉ known_device_codes → h.md5_sum = md5_hex payload →
      (s.kt_with_unknown_devcodes ≠ 0 →
        kindle_convert s k (str_bytes "FC02" ++ (encode_ota h ++ payload)) =
          .ok (dm payload)) ∧
      (s.kt_with_unknown_devcodes = 0 →
        kindle_convert s k (str_bytes "FC02" ++ (encode_ota h ++ payload)) =
          .error .UnknownDevice)) ∧
    (∀ s : ProcState, ∀ bs : List Nat, ∀ e : KTError,
      decode_ota bs = .error e → convert_ota_body s bs = .error e) ∧
    (∀ s : ProcState, ∀ bs : List Nat, ∀ h : OTAUpdateHeader, ∀ e : KTError,
      decode_ota bs = .ok h → lookup_device_name s h.device = .error e →
      convert_ota_body s bs = .error e) := by
  refine ⟨lookup_unknown_relaxed, lookup_unknown_strict, ?_, ?_, ?_⟩
  · intro s k h payload hwf hmem hdig
    have hM4 : (str_bytes "FC02").length = MAGIC_NUMBER_LENGTH := by decide
    have hml : h.md5_sum.length = MD5_HASH_LENGTH := hwf.2.2.2.2.2.1
    have hdrop : (encode_ota h ++ payload).drop OTA_UPDATE_BLOCK_SIZE = payload :=
      List.drop_left' (encode_ota_length h hml)
    have hV : get_bundle_version (ascii_str
        ((str_bytes "FC02" ++ (encode_ota h ++ payload)).take MAGIC_NUMBER_LENGTH)) =
        .OTAUpdate := by
      rw [List.take_left' hM4]
      decide
    have hkc : kindle_convert s k (str_bytes "FC02" ++ (encode_ota h ++ payload)) =
        convert_ota_body s (encode_ota h ++ payload) := by
      rw [kindle_convert_eq_body s k _ .OTAUpdate hV (by decide) (by decide),
        List.drop_left' hM4]
      rfl
    constructor
    · intro hflag
      rw [hkc]
      simp only [convert_ota_body, decode_ota_append h hwf payload, ebind_ok,
        lookup_unknown_relaxed s h.device hmem hflag, hdrop]
      rw [if_pos hdig]
    · intro hflag
      rw [hkc]
      simp only [convert_ota_body, decode_ota_append h hwf payload, ebind_ok,
        lookup_unknown_strict s h.device hmem hflag, ebind_err]
  · intro s bs e hdec
    simp only [convert_ota_body, hdec, ebind_err]
  · intro s bs h e hdec hlook
    simp only [convert_ota_body, hdec, ebind_ok, hlook, ebind_err]

set_option maxRecDepth 8192 in
/-- Witness for C7: device 0xFFFF is outside the catalog; with the relaxed
flag set in the process state, a concrete OTA bundle naming it converts
successfully; with the flag unset, conversion fails with UnknownDevice; a
short buffer's InvalidHeader propagates unchanged. -/
theorem unknown_device_handling_witness :
    (0xFFFF ∉ known_device_codes) ∧
    (OTAUpdateHeader.mk 1 2 0xFFFF 0 0 (md5_hex [7])).wf ∧
    kindle_convert (ProcState.mk 1 none "tmp") (RSAKeyPair.mk 61 53 17 2753)
      (str_bytes "FC02" ++
        (encode_ota (OTAUpdateHeader.mk 1 2 0xFFFF 0 0 (md5_hex [7])) ++ [7])) =
      .ok (dm [7]) ∧
    kindle_convert (ProcState.mk 0 none "tmp") (RSAKeyPair.mk 61 53 17 2753)
      (str_bytes "FC02" ++
        (encode_ota (OTAUpdateHeader.mk 1 2 0xFFFF 0 0 (md5_hex [7])) ++ [7])) =
      .error .UnknownDevice ∧
    decode_ota [] = .error .InvalidHeader ∧
    convert_ota_body (ProcState.mk 0 none "tmp") [] = .error .InvalidHeader :=
  ⟨by decide, by decide,
    (unknown_device_handling.2.2.1 (ProcState.mk 1 none "tmp")
      (RSAKeyPair.mk 61 53 17 2753) (OTAUpdateHeader.mk 1 2 0xFFFF 0 0 (md5_hex [7]))
      [7] (by decide) (by decide) rfl).1 (by decide),
    (unknown_device_handling.2.2.1 (ProcState.mk 0 none "tmp")
      (RSAKeyPair.mk 61 53 17 2753) (OTAUpdateHeader.mk 1 2 0xFFFF 0 0 (md5_hex [7]))
      [7] (by decide) (by decide) rfl).2 rfl,
    rfl,
    unknown_device_handling.2.2.2.1 (ProcState.mk 0 none "tmp") [] .InvalidHeader
      rfl⟩

end KindleTool
